import Mathlib

/-!
Verification development for the OSFL compile-and-execute pipeline
(lexer, parser, semantic pass, bytecode compiler, register VM).

Every definition below is a shallow embedding of the corresponding C
function from the repository (file and function names are given in the
doc comments).  C strings are modelled as Lean `String`/`List Char`,
C integer types as `Nat`/`Int` (with explicit wrap-around where a cast
matters), fallible code returns `Option`, and the C global-state style
is turned into explicit state passing.  Loops whose termination depends
on runtime data are given an explicit fuel argument that is always
instantiated large enough for the executions studied here (each loop
advances the position by at least one per iteration, so `length + 1`
steps suffice).
-/

set_option maxRecDepth 10000

namespace Osfl

/-- Named characters (kept as `Char.ofNat` so the embedding stays purely
numeric; the C lexer works on bytes). -/
def nulChar : Char := Char.ofNat 0

/-- Space character (byte 32). -/
def spaceChar : Char := Char.ofNat 32

/-- Horizontal tab (byte 9). -/
def tabChar : Char := Char.ofNat 9

/-- Carriage return (byte 13). -/
def crChar : Char := Char.ofNat 13

/-- Line feed (byte 10). -/
def nlChar : Char := Char.ofNat 10

/-- Double quote (byte 34). -/
def quoteChar : Char := Char.ofNat 34

/-- Dollar sign (byte 36). -/
def dollarChar : Char := Char.ofNat 36

/-- Backslash (byte 92). -/
def backslashChar : Char := Char.ofNat 92

/-- Opening curly brace (byte 123). -/
def lbraceChar : Char := Char.ofNat 123

/-- Closing curly brace (byte 125). -/
def rbraceChar : Char := Char.ofNat 125

/-- Underscore (byte 95). -/
def underscoreChar : Char := Char.ofNat 95

/-- Source location triple, `include/source_location.h`. -/
structure SourceLocation where
  line : Nat
  column : Nat
  file : String
deriving DecidableEq, Repr

/-- Token kinds, mirroring the `OSFLTokenType` enum of
`src/lexer/token.h` (only the spelling of the C identifiers is kept). -/
inductive TokenType where
  | TOKEN_FRAME
  | TOKEN_IN
  | TOKEN_VAR
  | TOKEN_CONST
  | TOKEN_FUNC
  | TOKEN_RETURN
  | TOKEN_IF
  | TOKEN_ELSE
  | TOKEN_LOOP
  | TOKEN_BREAK
  | TOKEN_CONTINUE
  | TOKEN_ON_ERROR
  | TOKEN_RETRY
  | TOKEN_RESET
  | TOKEN_NULL
  | TOKEN_FUNCTION
  | TOKEN_TRY
  | TOKEN_CATCH
  | TOKEN_WHILE
  | TOKEN_FOR
  | TOKEN_ELIF
  | TOKEN_SWITCH
  | TOKEN_CLASS
  | TOKEN_IMPORT
  | TOKEN_TYPE_INT
  | TOKEN_TYPE_FLOAT
  | TOKEN_TYPE_BOOL
  | TOKEN_TYPE_STRING
  | TOKEN_TYPE_FRAME
  | TOKEN_TYPE_REF
  | TOKEN_INTEGER
  | TOKEN_FLOAT
  | TOKEN_STRING
  | TOKEN_BOOL_TRUE
  | TOKEN_BOOL_FALSE
  | TOKEN_IDENTIFIER
  | TOKEN_PLUS
  | TOKEN_MINUS
  | TOKEN_STAR
  | TOKEN_SLASH
  | TOKEN_PERCENT
  | TOKEN_INCREMENT
  | TOKEN_DECREMENT
  | TOKEN_POW
  | TOKEN_BIT_NOT
  | TOKEN_BIT_AND
  | TOKEN_BIT_OR
  | TOKEN_BIT_XOR
  | TOKEN_AND
  | TOKEN_OR
  | TOKEN_NOT
  | TOKEN_EQ
  | TOKEN_NEQ
  | TOKEN_LT
  | TOKEN_GT
  | TOKEN_LTE
  | TOKEN_GTE
  | TOKEN_ASSIGN
  | TOKEN_PLUS_ASSIGN
  | TOKEN_MINUS_ASSIGN
  | TOKEN_STAR_ASSIGN
  | TOKEN_SLASH_ASSIGN
  | TOKEN_MOD_ASSIGN
  | TOKEN_ARROW
  | TOKEN_DOUBLE_ARROW
  | TOKEN_DOUBLE_COLON
  | TOKEN_LPAREN
  | TOKEN_RPAREN
  | TOKEN_LBRACE
  | TOKEN_RBRACE
  | TOKEN_LBRACKET
  | TOKEN_RBRACKET
  | TOKEN_COMMA
  | TOKEN_DOT
  | TOKEN_SEMICOLON
  | TOKEN_COLON
  | TOKEN_DOCSTRING
  | TOKEN_INTERPOLATION_START
  | TOKEN_INTERPOLATION_END
  | TOKEN_REGEX
  | TOKEN_WHITESPACE
  | TOKEN_NEWLINE
  | TOKEN_EOF
  | TOKEN_ERROR
deriving DecidableEq, Repr

/-- Payload union `TokenValue` of `token.h`.  `zero` models the
all-zero bytes that `memset` leaves behind when no payload is written.
C doubles are abstracted by the literal text handed to `atof`: no code
modelled here ever consumes the numeric value of a float (the compiler
ignores `f64_val` and the VM only ever stores the constant `0.0`). -/
inductive TokenValue where
  | zero
  | intVal (v : Int)
  | floatVal (text : String)
  | stringVal (data : String) (length : Nat)
  | boolVal (b : Bool)
deriving DecidableEq, Repr

/-- Token record of `token.h`.  The `text : char[64]` buffer is modelled
as a `String`; the `strncpy_s(.., sizeof(text), src, sizeof(text)-1)`
calls that fill it are modelled as `String.take 63`. -/
structure Token where
  type : TokenType
  value : TokenValue
  location : SourceLocation
  text : String
deriving DecidableEq, Repr

/-- Lexer configuration, `lexer.h`. -/
structure LexerConfig where
  skip_whitespace : Bool
  include_comments : Bool
  track_line_endings : Bool
  tab_width : Nat
  file_name : String
deriving DecidableEq, Repr

/-- Default lexer configuration, `lexer.c:lexer_default_config`. -/
def lexer_default_config : LexerConfig :=
  { skip_whitespace := true
    include_comments := false
    track_line_endings := true
    tab_width := 4
    file_name := "input.osfl" }

/-- Lexer error kinds, `lexer.h:LexerErrorType`. -/
inductive LexerErrorType where
  | LEXER_ERROR_NONE
  | LEXER_ERROR_INVALID_CHAR
  | LEXER_ERROR_INVALID_STRING
  | LEXER_ERROR_INVALID_NUMBER
  | LEXER_ERROR_INVALID_IDENTIFIER
  | LEXER_ERROR_UNTERMINATED_COMMENT
  | LEXER_ERROR_UNTERMINATED_STRING
  | LEXER_ERROR_STRING_TOO_LONG
  | LEXER_ERROR_LINE_TOO_LONG
  | LEXER_ERROR_INVALID_ESCAPE
  | LEXER_ERROR_FILE_IO
  | LEXER_ERROR_BUFFER_OVERFLOW
  | LEXER_ERROR_INVALID_ESCAPE_SEQUENCE
  | LEXER_ERROR_MEMORY
deriving DecidableEq, Repr

/-- Lexer error record, `lexer.h:LexerError`.  The printf-formatted
`message` buffer is not modelled; no claim inspects message text. -/
structure LexerError where
  type : LexerErrorType
  location : SourceLocation
deriving DecidableEq, Repr

/-- Mutable scanning state of `struct Lexer` (`lexer.c`) minus the error
record, which is threaded separately because no scanning code reads it.
The dead `error_buffer` field (never read or written during scanning)
and the `string_buffer` (always `memset` before use, so it carries no
information between calls and is modelled by local accumulators) are
omitted. -/
structure LexCore where
  source : List Char
  length : Nat
  position : Nat
  line : Nat
  column : Nat
  current : Char
  peek : Char
  config : LexerConfig
deriving Repr

/-- Whole lexer state: scanning core plus last-error record. -/
structure Lexer where
  core : LexCore
  error : LexerError

/-- Builds the `LexerError` that `set_error` would record at the current
position of `c` (`lexer.c:set_error`). -/
def mk_error (t : LexerErrorType) (c : LexCore) : LexerError :=
  { type := t
    location := { line := c.line, column := c.column, file := c.config.file_name } }

/-- Position test, `lexer.c:is_at_end`. -/
def is_at_end (c : LexCore) : Bool :=
  c.length ≤ c.position

/-- Character consumption, `lexer.c:advance`. -/
def advance (c : LexCore) : LexCore :=
  if is_at_end c then c
  else
    let position := c.position + 1
    let current := if position < c.length then c.source.getD position nulChar else nulChar
    let peek := if position + 1 < c.length then c.source.getD (position + 1) nulChar else nulChar
    if 0 < position && c.source.getD (position - 1) nulChar == nlChar then
      { c with position, current, peek, line := c.line + 1, column := 1 }
    else
      { c with position, current, peek, column := c.column + 1 }

/-- Decimal digit test, `lexer.c:is_digit_10`. -/
def is_digit_10 (c : Char) : Bool :=
  48 ≤ c.toNat && c.toNat ≤ 57

/-- Hexadecimal digit test, `lexer.c:is_hex_digit`. -/
def is_hex_digit (c : Char) : Bool :=
  is_digit_10 c || (65 ≤ c.toNat && c.toNat ≤ 70) || (97 ≤ c.toNat && c.toNat ≤ 102)

/-- ASCII letter test, `lexer.c:is_alpha_ascii`. -/
def is_alpha_ascii (c : Char) : Bool :=
  (97 ≤ c.toNat && c.toNat ≤ 122) || (65 ≤ c.toNat && c.toNat ≤ 90)

/-- Identifier start test, `lexer.c:is_valid_identifier_start`. -/
def is_valid_identifier_start (c : Char) : Bool :=
  is_alpha_ascii c || c == underscoreChar || 128 ≤ c.toNat

/-- Identifier continuation test, `lexer.c:is_valid_identifier_char`. -/
def is_valid_identifier_char (c : Char) : Bool :=
  is_alpha_ascii c || is_digit_10 c || c == underscoreChar || 128 ≤ c.toNat

/-- Generous fuel bound for the lexer loops: every loop iteration
advances `position` by at least one and `position` never exceeds
`length`, so `length + 1` iterations always suffice. -/
def lexFuel (c : LexCore) : Nat := c.length + 1

/-- Whitespace skipping loop, `lexer.c:skip_whitespace`. -/
def lexer_skip_whitespace_go : Nat → LexCore → LexCore
  | 0, c => c
  | Nat.succ fuel, c =>
    if is_at_end c then c
    else if c.current == spaceChar || c.current == crChar || c.current == tabChar then
      lexer_skip_whitespace_go fuel (advance c)
    else c

/-- Entry point of `lexer.c:skip_whitespace`. -/
def lexer_skip_whitespace (c : LexCore) : LexCore :=
  lexer_skip_whitespace_go (lexFuel c) c

/-- Inner loop of the single-line comment skip (`lexer.c:skip_comments`,
`while (!is_at_end(lexer) && lexer->current != ..newline..) advance;`). -/
def skip_line_comment_go : Nat → LexCore → LexCore
  | 0, c => c
  | Nat.succ fuel, c =>
    if !is_at_end c && c.current != nlChar then
      skip_line_comment_go fuel (advance c)
    else c

/-- Inner loop of the block comment skip (`lexer.c:skip_comments`);
returns the state together with the `closed` flag. -/
def skip_block_comment_go : Nat → LexCore → LexCore × Bool
  | 0, c => (c, false)
  | Nat.succ fuel, c =>
    if is_at_end c then (c, false)
    else if c.current == '*' && c.peek == '/' then
      (advance (advance c), true)
    else skip_block_comment_go fuel (advance c)

/-- Comment skipping loop, `lexer.c:skip_comments`.  May record an
unterminated-comment error. -/
def skip_comments_go : Nat → LexCore → Option LexerError → LexCore × Option LexerError
  | 0, c, e => (c, e)
  | Nat.succ fuel, c, e =>
    if is_at_end c then (c, e)
    else if c.current == '/' && c.peek == '/' then
      if c.config.include_comments then (c, e)
      else
        let c := skip_line_comment_go (lexFuel c) c
        let c := lexer_skip_whitespace c
        skip_comments_go fuel c e
    else if c.current == '/' && c.peek == '*' then
      if c.config.include_comments then (c, e)
      else
        let c := advance (advance c)
        let r := skip_block_comment_go (lexFuel c) c
        let e := if r.2 then e else some (mk_error .LEXER_ERROR_UNTERMINATED_COMMENT r.1)
        let c := lexer_skip_whitespace r.1
        skip_comments_go fuel c e
    else (c, e)

/-- Character appender for string buffers, `lexer.c:safe_append_char`.
`LEXER_MAX_STRING_LENGTH` is 64, so at most 63 characters fit. -/
def safe_append_char (c : LexCore) (ch : Char) (buf : String) (len : Nat)
    (e : Option LexerError) : String × Nat × Option LexerError :=
  if len < 63 then (buf.push ch, len + 1, e)
  else (buf, len, some (mk_error .LEXER_ERROR_BUFFER_OVERFLOW c))

/-- Keyword table, `lexer.c:KEYWORDS`. -/
def KEYWORDS : List (String × TokenType) :=
  [("frame", .TOKEN_FRAME), ("in", .TOKEN_IN), ("var", .TOKEN_VAR),
   ("const", .TOKEN_CONST), ("func", .TOKEN_FUNC), ("return", .TOKEN_RETURN),
   ("if", .TOKEN_IF), ("else", .TOKEN_ELSE), ("loop", .TOKEN_LOOP),
   ("break", .TOKEN_BREAK), ("continue", .TOKEN_CONTINUE),
   ("on_error", .TOKEN_ON_ERROR), ("retry", .TOKEN_RETRY),
   ("reset", .TOKEN_RESET), ("null", .TOKEN_NULL),
   ("function", .TOKEN_FUNCTION), ("try", .TOKEN_TRY), ("catch", .TOKEN_CATCH),
   ("elif", .TOKEN_ELIF), ("while", .TOKEN_WHILE), ("for", .TOKEN_FOR),
   ("switch", .TOKEN_SWITCH), ("class", .TOKEN_CLASS), ("import", .TOKEN_IMPORT)]

/-- First-match keyword lookup (the C loop over `KEYWORDS`). -/
def keyword_lookup (s : String) : Option TokenType :=
  (KEYWORDS.find? (fun p => p.fst == s)).map (fun p => p.snd)

/-- Identifier scanning loop of `lexer.c:scan_identifier` (63-char
buffer cap: beyond it characters are consumed but not stored). -/
def scan_identifier_go : Nat → LexCore → String → Nat → LexCore × String × Nat
  | 0, c, buf, len => (c, buf, len)
  | Nat.succ fuel, c, buf, len =>
    if !is_at_end c && is_valid_identifier_char c.current then
      let buf2 := if len < 63 then buf.push c.current else buf
      let len2 := if len < 63 then len + 1 else len
      scan_identifier_go fuel (advance c) buf2 len2
    else (c, buf, len)

/-- Identifier / keyword scanner, `lexer.c:scan_identifier`. -/
def scan_identifier (c : LexCore) (tok : Token) : Token × LexCore :=
  let r := scan_identifier_go (lexFuel c) c "" 0
  let buf := r.2.1
  let t0 := { tok with type := .TOKEN_IDENTIFIER, text := buf }
  let t1 := match keyword_lookup buf with
    | some k => { t0 with type := k }
    | none => t0
  let t2 :=
    if buf == "true" then { t1 with type := .TOKEN_BOOL_TRUE, value := .boolVal true }
    else if buf == "false" then { t1 with type := .TOKEN_BOOL_FALSE, value := .boolVal false }
    else t1
  (t2, r.1)

/-- Value of one character as a digit (as `strtoll` sees it). -/
def digit_val (c : Char) : Option Nat :=
  if is_digit_10 c then some (c.toNat - 48)
  else if 97 ≤ c.toNat && c.toNat ≤ 122 then some (c.toNat - 97 + 10)
  else if 65 ≤ c.toNat && c.toNat ≤ 90 then some (c.toNat - 65 + 10)
  else none

/-- Digit-consuming loop of `strtoll`: stops at the first character that
is not a digit of the base. -/
def strtoll_digits : List Char → Nat → Nat → Nat
  | [], _, acc => acc
  | ch :: rest, base, acc =>
    match digit_val ch with
    | some d => if d < base then strtoll_digits rest base (acc * base + d) else acc
    | none => acc

/-- Model of C `strtoll(s, NULL, base)`: skips leading whitespace, takes
an optional sign, accepts a `0x`/`0X` prefix only for base 16, then
consumes digits of the base.  (Int64 clamping on overflow is not
modelled; every literal studied here is tiny.) -/
def strtollModel (s : String) (base : Nat) : Int :=
  let cs := s.data.dropWhile
    (fun ch => ch == spaceChar || ch == tabChar || ch == nlChar || ch == crChar)
  let signed : Bool × List Char :=
    match cs with
    | ch :: rest =>
      if ch == '-' then (true, rest)
      else if ch == '+' then (false, rest)
      else (false, ch :: rest)
    | [] => (false, [])
  let cs2 :=
    if base == 16 then
      match signed.2 with
      | c0 :: cx :: rest =>
        if c0 == '0' && (cx == 'x' || cx == 'X') then rest else c0 :: cx :: rest
      | l => l
    else signed.2
  let n := strtoll_digits cs2 base 0
  if signed.1 then -(n : Int) else (n : Int)

/-- Model of C `atoll` (same as `strtoll` with base 10). -/
def atollModel (s : String) : Int :=
  strtollModel s 10

/-- Hexadecimal digit loop of `lexer.c:scan_number` (buffer cap 127). -/
def scan_hex_go : Nat → LexCore → String → LexCore × String
  | 0, c, buf => (c, buf)
  | Nat.succ fuel, c, buf =>
    if !is_at_end c && is_hex_digit c.current then
      let buf2 := if buf.length < 127 then buf.push c.current else buf
      scan_hex_go fuel (advance c) buf2
    else (c, buf)

/-- Binary digit loop of `lexer.c:scan_number` (underscores skipped). -/
def scan_bin_go : Nat → LexCore → String → LexCore × String
  | 0, c, buf => (c, buf)
  | Nat.succ fuel, c, buf =>
    if !is_at_end c && (c.current == '0' || c.current == '1' || c.current == underscoreChar) then
      let buf2 :=
        if c.current != underscoreChar && buf.length < 127 then buf.push c.current else buf
      scan_bin_go fuel (advance c) buf2
    else (c, buf)

/-- Octal digit loop of `lexer.c:scan_number` (underscores skipped). -/
def scan_oct_go : Nat → LexCore → String → LexCore × String
  | 0, c, buf => (c, buf)
  | Nat.succ fuel, c, buf =>
    if !is_at_end c &&
       ((48 ≤ c.current.toNat && c.current.toNat ≤ 55) || c.current == underscoreChar) then
      let buf2 :=
        if c.current != underscoreChar && buf.length < 127 then buf.push c.current else buf
      scan_oct_go fuel (advance c) buf2
    else (c, buf)

/-- Exponent digit loop inside `lexer.c:scan_number`
(`while (is_digit_10(lexer->current)) ...`). -/
def scan_exp_digits_go : Nat → LexCore → String → LexCore × String
  | 0, c, buf => (c, buf)
  | Nat.succ fuel, c, buf =>
    if is_digit_10 c.current then
      scan_exp_digits_go fuel (advance c) (buf.push c.current)
    else (c, buf)

/-- Decimal/float loop of `lexer.c:scan_number`.  Returns the state,
the accumulated buffer and the `is_float` flag. -/
def scan_dec_go : Nat → LexCore → String → Bool → Bool → LexCore × String × Bool
  | 0, c, buf, _, isFloat => (c, buf, isFloat)
  | Nat.succ fuel, c, buf, seenDot, isFloat =>
    if is_at_end c then (c, buf, isFloat)
    else if c.current == underscoreChar then
      scan_dec_go fuel (advance c) buf seenDot isFloat
    else if c.current == '.' then
      if seenDot then (c, buf, isFloat)
      else
        let buf2 := buf.push '.'
        let c2 := advance c
        if 127 ≤ buf2.length then (c2, buf2, true)
        else scan_dec_go fuel c2 buf2 true true
    else if is_digit_10 c.current then
      let buf2 := buf.push c.current
      let c2 := advance c
      if 127 ≤ buf2.length then (c2, buf2, isFloat)
      else scan_dec_go fuel c2 buf2 seenDot isFloat
    else if (c.current == 'e' || c.current == 'E') && is_digit_10 c.peek then
      let buf2 := buf.push c.current
      let c2 := advance c
      let signStep : LexCore × String :=
        if c2.current == '+' || c2.current == '-' then (advance c2, buf2.push c2.current)
        else (c2, buf2)
      let r := scan_exp_digits_go (lexFuel signStep.1) signStep.1 signStep.2
      if 127 ≤ r.2.length then (r.1, r.2, true)
      else scan_dec_go fuel r.1 r.2 seenDot true
    else (c, buf, isFloat)

/-- Number scanner, `lexer.c:scan_number` (hex / binary / octal /
decimal / float with exponent). -/
def scan_number (c : LexCore) (tok : Token) : Token × LexCore :=
  if c.current == '0' && (c.peek == 'x' || c.peek == 'X') then
    let buf := String.mk [c.current]
    let c2 := advance c
    let buf := buf.push c2.current
    let c3 := advance c2
    let r := scan_hex_go (lexFuel c3) c3 buf
    ({ tok with type := .TOKEN_INTEGER, value := .intVal (strtollModel r.2 16), text := r.2 }, r.1)
  else if c.current == '0' && (c.peek == 'b' || c.peek == 'B') then
    let buf := String.mk [c.current]
    let c2 := advance c
    let buf := buf.push c2.current
    let c3 := advance c2
    let r := scan_bin_go (lexFuel c3) c3 buf
    ({ tok with type := .TOKEN_INTEGER, value := .intVal (strtollModel r.2 2), text := r.2 }, r.1)
  else if c.current == '0' && (c.peek == 'o' || c.peek == 'O') then
    let buf := String.mk [c.current]
    let c2 := advance c
    let buf := buf.push c2.current
    let c3 := advance c2
    let r := scan_oct_go (lexFuel c3) c3 buf
    ({ tok with type := .TOKEN_INTEGER, value := .intVal (strtollModel r.2 8), text := r.2 }, r.1)
  else
    let r := scan_dec_go (lexFuel c) c "" false false
    let buf := r.2.1
    if r.2.2 then
      ({ tok with type := .TOKEN_FLOAT, value := .floatVal buf, text := buf }, r.1)
    else
      ({ tok with type := .TOKEN_INTEGER, value := .intVal (atollModel buf), text := buf }, r.1)

/-- Result of the string-scanning loop in `lexer.c:scan_string`:
either an early `return` with a finished token, or the loop exit with
the accumulated buffer. -/
inductive StrScanRes where
  | early (t : Token) (c : LexCore) (e : Option LexerError)
  | finished (c : LexCore) (e : Option LexerError) (buf : String) (len : Nat)

/-- Main loop of `lexer.c:scan_string`: handles `${` interpolation
splitting, the four escapes, and buffer-capped accumulation. -/
def scan_string_go : Nat → LexCore → Token → Option LexerError → String → Nat → StrScanRes
  | 0, c, _, e, buf, len => .finished c e buf len
  | Nat.succ fuel, c, tok, e, buf, len =>
    if is_at_end c || c.current == quoteChar then .finished c e buf len
    else if c.current == dollarChar && c.peek == lbraceChar then
      if 0 < len then
        .early { tok with text := buf.take 63, value := .stringVal buf len } c e
      else
        let interp : Token :=
          { type := .TOKEN_INTERPOLATION_START
            value := .zero
            location := { line := c.line, column := c.column, file := c.config.file_name }
            text := String.mk [dollarChar, lbraceChar] }
        .early interp (advance (advance c)) e
    else if c.current == backslashChar then
      let c2 := advance c
      if is_at_end c2 then
        .early { tok with type := .TOKEN_ERROR } c2
          (some (mk_error .LEXER_ERROR_UNTERMINATED_STRING c2))
      else if c2.current == 'n' then
        let r := safe_append_char c2 nlChar buf len e
        scan_string_go fuel (advance c2) tok r.2.2 r.1 r.2.1
      else if c2.current == 't' then
        let r := safe_append_char c2 tabChar buf len e
        scan_string_go fuel (advance c2) tok r.2.2 r.1 r.2.1
      else if c2.current == backslashChar then
        let r := safe_append_char c2 backslashChar buf len e
        scan_string_go fuel (advance c2) tok r.2.2 r.1 r.2.1
      else if c2.current == quoteChar then
        let r := safe_append_char c2 quoteChar buf len e
        scan_string_go fuel (advance c2) tok r.2.2 r.1 r.2.1
      else
        .early { tok with type := .TOKEN_ERROR } c2
          (some (mk_error .LEXER_ERROR_INVALID_ESCAPE c2))
    else
      let r := safe_append_char c c.current buf len e
      scan_string_go fuel (advance c) tok r.2.2 r.1 r.2.1

/-- String literal scanner, `lexer.c:scan_string`. -/
def scan_string (c0 : LexCore) (tok0 : Token) : Token × LexCore × Option LexerError :=
  let tok := { tok0 with type := TokenType.TOKEN_STRING }
  let c := advance c0
  match scan_string_go (lexFuel c) c tok none "" 0 with
  | .early t c2 e => (t, c2, e)
  | .finished c2 e buf len =>
    if is_at_end c2 then
      ({ tok with type := .TOKEN_ERROR }, c2,
       some (mk_error .LEXER_ERROR_UNTERMINATED_STRING c2))
    else
      let c3 := advance c2
      ({ tok with text := buf.take 63, value := .stringVal buf len }, c3, e)

/-- Loop of `lexer.c:scan_docstring`; `Sum.inr` is the early return on
buffer overflow, `Sum.inl` the regular loop exit. -/
def scan_docstring_go : Nat → LexCore → String → Nat →
    (LexCore × String × Nat) ⊕ (LexCore × LexerError)
  | 0, c, buf, len => .inl (c, buf, len)
  | Nat.succ fuel, c, buf, len =>
    if is_at_end c then .inl (c, buf, len)
    else if c.current == quoteChar && c.peek == quoteChar && c.position + 2 < c.length &&
            c.source.getD (c.position + 2) nulChar == quoteChar then
      .inl (advance (advance (advance c)), buf, len)
    else if 63 ≤ len then
      .inr (c, mk_error .LEXER_ERROR_BUFFER_OVERFLOW c)
    else
      scan_docstring_go fuel (advance c) (buf.push c.current) (len + 1)

/-- Docstring scanner, `lexer.c:scan_docstring`. -/
def scan_docstring (c0 : LexCore) (tok0 : Token) : Token × LexCore × Option LexerError :=
  let c := advance (advance (advance c0))
  let tok := { tok0 with type := TokenType.TOKEN_DOCSTRING }
  match scan_docstring_go (lexFuel c) c "" 0 with
  | .inr r => ({ tok with type := .TOKEN_ERROR }, r.1, some r.2)
  | .inl r =>
    ({ tok with text := r.2.1.take 63, value := .stringVal r.2.1 r.2.2 }, r.1, none)

/-- Loop of `lexer.c:scan_regex_literal`. -/
def scan_regex_go : Nat → LexCore → String → Nat → Option LexerError →
    LexCore × String × Nat × Option LexerError
  | 0, c, buf, len, e => (c, buf, len, e)
  | Nat.succ fuel, c, buf, len, e =>
    if is_at_end c then (c, buf, len, e)
    else if c.current == backslashChar then
      let r := safe_append_char c c.current buf len e
      let c2 := advance c
      if is_at_end c2 then (c2, r.1, r.2.1, r.2.2)
      else
        let r2 := safe_append_char c2 c2.current r.1 r.2.1 r.2.2
        scan_regex_go fuel (advance c2) r2.1 r2.2.1 r2.2.2
    else if c.current == '/' then
      (advance c, buf, len, e)
    else
      let r := safe_append_char c c.current buf len e
      scan_regex_go fuel (advance c) r.1 r.2.1 r.2.2

/-- Regex literal scanner, `lexer.c:scan_regex_literal`. -/
def scan_regex_literal (c0 : LexCore) (tok0 : Token) : Token × LexCore × Option LexerError :=
  let tok := { tok0 with type := TokenType.TOKEN_REGEX }
  let c := advance c0
  let r := scan_regex_go (lexFuel c) c "" 0 none
  ({ tok with text := r.2.1.take 63, value := .stringVal r.2.1 r.2.2.1 }, r.1, r.2.2.2)

/-- Multi-character operator helper, `lexer.c:handle_multi_char_operator`
(note: it moves `position`/`column` directly and recomputes the cached
characters, without going through `advance`). -/
def handle_multi_char_operator (c : LexCore) (t : TokenType) (text : String) :
    Token × LexCore :=
  let tok : Token :=
    { type := t
      value := .zero
      location := { line := c.line, column := c.column, file := c.config.file_name }
      text := text }
  let position := c.position + text.length
  let current := if position < c.length then c.source.getD position nulChar else nulChar
  let peek := if position + 1 < c.length then c.source.getD (position + 1) nulChar else nulChar
  (tok, { c with position, current, peek, column := c.column + text.length })

/-- Operator / punctuation scanner, `lexer.c:scan_operator_or_regex`. -/
def scan_operator_or_regex (c : LexCore) : Token × LexCore × Option LexerError :=
  let ch := c.current
  let p := c.peek
  if ch == '*' && p == '*' then
    let r := handle_multi_char_operator c .TOKEN_POW "**"; (r.1, r.2, none)
  else if ch == '+' && p == '+' then
    let r := handle_multi_char_operator c .TOKEN_INCREMENT "++"; (r.1, r.2, none)
  else if ch == '-' && p == '-' then
    let r := handle_multi_char_operator c .TOKEN_DECREMENT "--"; (r.1, r.2, none)
  else if ch == '=' && p == '=' then
    let r := handle_multi_char_operator c .TOKEN_EQ "=="; (r.1, r.2, none)
  else if ch == '!' && p == '=' then
    let r := handle_multi_char_operator c .TOKEN_NEQ "!="; (r.1, r.2, none)
  else if ch == '<' && p == '=' then
    let r := handle_multi_char_operator c .TOKEN_LTE "<="; (r.1, r.2, none)
  else if ch == '>' && p == '=' then
    let r := handle_multi_char_operator c .TOKEN_GTE ">="; (r.1, r.2, none)
  else if ch == '&' && p == '&' then
    let r := handle_multi_char_operator c .TOKEN_AND "&&"; (r.1, r.2, none)
  else if ch == '|' && p == '|' then
    let r := handle_multi_char_operator c .TOKEN_OR "||"; (r.1, r.2, none)
  else if ch == '+' && p == '=' then
    let r := handle_multi_char_operator c .TOKEN_PLUS_ASSIGN "+="; (r.1, r.2, none)
  else if ch == '-' && p == '=' then
    let r := handle_multi_char_operator c .TOKEN_MINUS_ASSIGN "-="; (r.1, r.2, none)
  else if ch == '*' && p == '=' then
    let r := handle_multi_char_operator c .TOKEN_STAR_ASSIGN "*="; (r.1, r.2, none)
  else if ch == '/' && p == '=' then
    let r := handle_multi_char_operator c .TOKEN_SLASH_ASSIGN "/="; (r.1, r.2, none)
  else if ch == '%' && p == '=' then
    let r := handle_multi_char_operator c .TOKEN_MOD_ASSIGN "%="; (r.1, r.2, none)
  else if ch == '-' && p == '>' then
    let r := handle_multi_char_operator c .TOKEN_ARROW "->"; (r.1, r.2, none)
  else if ch == '=' && p == '>' then
    let r := handle_multi_char_operator c .TOKEN_DOUBLE_ARROW "=>"; (r.1, r.2, none)
  else if ch == ':' && p == ':' then
    let r := handle_multi_char_operator c .TOKEN_DOUBLE_COLON "::"; (r.1, r.2, none)
  else
    let base : Token :=
      { type := .TOKEN_ERROR
        value := .zero
        location := { line := c.line, column := c.column, file := c.config.file_name }
        text := "" }
    if ch == '~' then ({ base with type := .TOKEN_BIT_NOT, text := "~" }, advance c, none)
    else if ch == '^' then ({ base with type := .TOKEN_BIT_XOR, text := "^" }, advance c, none)
    else if ch == '&' then ({ base with type := .TOKEN_BIT_AND, text := "&" }, advance c, none)
    else if ch == '|' then ({ base with type := .TOKEN_BIT_OR, text := "|" }, advance c, none)
    else if ch == '[' then ({ base with type := .TOKEN_LBRACKET, text := "[" }, advance c, none)
    else if ch == ']' then ({ base with type := .TOKEN_RBRACKET, text := "]" }, advance c, none)
    else if ch == '+' then ({ base with type := .TOKEN_PLUS, text := "+" }, advance c, none)
    else if ch == '-' then ({ base with type := .TOKEN_MINUS, text := "-" }, advance c, none)
    else if ch == '*' then ({ base with type := .TOKEN_STAR, text := "*" }, advance c, none)
    else if ch == '/' then ({ base with type := .TOKEN_SLASH, text := "/" }, advance c, none)
    else if ch == '%' then ({ base with type := .TOKEN_PERCENT, text := "%" }, advance c, none)
    else if ch == '=' then ({ base with type := .TOKEN_ASSIGN, text := "=" }, advance c, none)
    else if ch == '!' then ({ base with type := .TOKEN_NOT, text := "!" }, advance c, none)
    else if ch == '<' then ({ base with type := .TOKEN_LT, text := "<" }, advance c, none)
    else if ch == '>' then ({ base with type := .TOKEN_GT, text := ">" }, advance c, none)
    else if ch == '(' then ({ base with type := .TOKEN_LPAREN, text := "(" }, advance c, none)
    else if ch == ')' then ({ base with type := .TOKEN_RPAREN, text := ")" }, advance c, none)
    else if ch == lbraceChar then
      ({ base with type := .TOKEN_LBRACE, text := "\x7b" }, advance c, none)
    else if ch == rbraceChar then
      ({ base with type := .TOKEN_RBRACE, text := "\x7d" }, advance c, none)
    else if ch == ';' then ({ base with type := .TOKEN_SEMICOLON, text := ";" }, advance c, none)
    else if ch == ':' then ({ base with type := .TOKEN_COLON, text := ":" }, advance c, none)
    else if ch == ',' then ({ base with type := .TOKEN_COMMA, text := "," }, advance c, none)
    else if ch == '.' then ({ base with type := .TOKEN_DOT, text := "." }, advance c, none)
    else
      ({ base with type := .TOKEN_ERROR, text := String.mk [ch] }, advance c,
       some (mk_error .LEXER_ERROR_INVALID_CHAR c))

/-- Scanner dispatcher, `lexer.c:scan_token_dispatch`. -/
def scan_token_dispatch (c : LexCore) (tok : Token) : Token × LexCore × Option LexerError :=
  let ch := c.current
  if ch == quoteChar && c.peek == quoteChar && c.position + 2 < c.length &&
     c.source.getD (c.position + 2) nulChar == quoteChar then
    scan_docstring c tok
  else if ch == quoteChar then
    scan_string c tok
  else if ch == '/' && c.peek != '/' && c.peek != '*' then
    scan_regex_literal c tok
  else if is_valid_identifier_start ch then
    let r := scan_identifier c tok
    (r.1, r.2, none)
  else if is_digit_10 ch || (ch == '.' && is_digit_10 c.peek) then
    let r := scan_number c tok
    (r.1, r.2, none)
  else
    scan_operator_or_regex c

/-- Internal token production, `lexer.c:lexer_next_token_internal`.
Returns the token, the new scanning state, and the last error written
by `set_error` during the call (`none` when the error record was left
untouched). -/
def lexer_next_token_internal (c0 : LexCore) : Token × LexCore × Option LexerError :=
  let c1 := lexer_skip_whitespace c0
  let r := skip_comments_go (lexFuel c1) c1 none
  let c := r.1
  let e := r.2
  if is_at_end c then
    ({ type := .TOKEN_EOF
       value := .zero
       location := { line := c.line, column := c.column, file := c.config.file_name }
       text := "" }, c, e)
  else
    let tok : Token :=
      { type := .TOKEN_FRAME
        value := .zero
        location := { line := c.line, column := c.column, file := c.config.file_name }
        text := "" }
    if c.current == nlChar && c.config.track_line_endings then
      ({ tok with type := .TOKEN_NEWLINE, text := String.mk [backslashChar, 'n'] },
       advance c, e)
    else
      let s := scan_token_dispatch c tok
      (s.1, s.2.1, match s.2.2 with | some x => some x | none => e)

/-- Error record that `lexer.c:clear_error` writes. -/
def clear_error_record (c : LexCore) : LexerError :=
  { type := .LEXER_ERROR_NONE
    location := { line := c.line, column := c.column, file := c.config.file_name } }

/-- Public `lexer.c:lexer_next_token`: clears the error record, then
scans; any `set_error` during the scan overwrites the cleared record. -/
def lexer_next_token (l : Lexer) : Token × Lexer :=
  let cleared := clear_error_record l.core
  let r := lexer_next_token_internal l.core
  (r.1, { core := r.2.1, error := r.2.2.getD cleared })

/-- Public `lexer.c:lexer_peek_token`: scans, then restores position,
line, column, the cached current/peek characters and the error record,
leaving the lexer exactly as before. -/
def lexer_peek_token (l : Lexer) : Token × Lexer :=
  let r := lexer_next_token_internal l.core
  (r.1, l)

/-- Constructor `lexer.c:lexer_create` (non-null source). -/
def lexer_create (source : List Char) (config : LexerConfig) : Lexer :=
  let length := source.length
  { core :=
      { source
        length
        position := 0
        line := 1
        column := 1
        current := if 0 < length then source.getD 0 nulChar else nulChar
        peek := if 1 < length then source.getD 1 nulChar else nulChar
        config }
    error :=
      { type := .LEXER_ERROR_NONE
        location := { line := 1, column := 1, file := config.file_name } } }

/-- Token-collection loop of `osfl.c:osfl_run_file` step 2: repeatedly
calls `lexer_next_token` and stops after storing the first `TOKEN_EOF`
or `TOKEN_ERROR` token. -/
def collect_tokens_go : Nat → Lexer → List Token → List Token × Lexer
  | 0, l, acc => (acc.reverse, l)
  | Nat.succ fuel, l, acc =>
    let r := lexer_next_token l
    if r.1.type == TokenType.TOKEN_EOF || r.1.type == TokenType.TOKEN_ERROR then
      ((r.1 :: acc).reverse, r.2)
    else collect_tokens_go fuel r.2 (r.1 :: acc)

/-- Entry point for token collection (fuel: one token consumes at least
one source character, except the final EOF/ERROR token). -/
def collect_tokens (l : Lexer) : List Token × Lexer :=
  collect_tokens_go (l.core.length + 1) l []

/-! ## AST (include/ast.h) -/

/-- Literal payload union of `AstLiteralData` (`ast.h`).  As with
tokens, the C double `f64_val` is abstracted by the text handed to
`atof`; nothing modelled here consumes the numeric value. -/
inductive LitVal where
  | zero
  | ival (v : Int)
  | fval (text : String)
  | bval (b : Bool)
  | sval (s : String)
deriving DecidableEq, Repr

mutual
/-- AST node of `ast.h:AstNode`: a tagged payload (`AstCore`), a source
location and the `next_sibling` chain pointer. -/
inductive AstNode : Type where
  | mk (core : AstCore) (loc : SourceLocation) (next_sibling : Option AstNode)

/-- The `AstNodeType` tag together with the corresponding member of the
`as` union (`ast.h`); child pointers become `Option AstNode`, child
arrays become `List AstNode` (the parser's `append_node` never stores a
null entry). -/
inductive AstCore : Type where
  | frameDecl (frame_name : String) (body : List AstNode)
  | varDecl (var_name : String) (is_const : Bool) (initializer : Option AstNode)
  | constDecl (var_name : String) (is_const : Bool) (initializer : Option AstNode)
  | funcDecl (func_name : String) (params : List String) (body : Option AstNode)
  | ifNode (condition then_branch else_branch : Option AstNode)
  | elseNode
  | loopNode (body : Option AstNode)
  | errorHandler (handler_body : Option AstNode)
  | functionNode
  | tryCatch (handler_body : Option AstNode)
  | classDecl (class_name : String) (members : List AstNode)
  | block (statements : List AstNode)
  | returnStmt (expr : Option AstNode)
  | whileStmt (condition body : Option AstNode)
  | forStmt (init condition increment body : Option AstNode)
  | ifStmt (condition then_branch else_branch : Option AstNode)
  | exprStmt (expr : Option AstNode)
  | exprGeneric
  | exprBinary (op : TokenType) (left right : Option AstNode)
  | exprUnary (op : TokenType) (expr : Option AstNode)
  | exprLiteral (literal_type : TokenType) (payload : LitVal)
  | exprIdentifier (name : String)
  | exprCall (callee : Option AstNode) (args : List AstNode)
  | exprIndex (object index : Option AstNode)
  | exprMember (object : Option AstNode) (member_name : String)
  | exprInterpolation (expr : Option AstNode)
  | docstringNode (text : String)
  | regexNode (text : String)
end

/-- Location accessor (`node->loc`). -/
def AstNode.loc : AstNode → SourceLocation
  | .mk _ l _ => l

/-! ## Parser (src/parser/parser.c) -/

/-- Parser state, `parser.h` / `parser.c:parser_create`. -/
structure Parser where
  tokens : List Token
  token_count : Nat
  current : Nat
deriving Repr

/-- Constructor `parser.c:parser_create`. -/
def parser_create (tokens : List Token) (token_count : Nat) : Parser :=
  { tokens, token_count, current := 0 }

/-- All-zero token (what `memset(&eof, 0, ...)` followed by
`eof.type = TOKEN_EOF` produces in `parser_peek`/`parser_advance`). -/
def eofToken : Token :=
  { type := .TOKEN_EOF, value := .zero, location := { line := 0, column := 0, file := "" },
    text := "" }

/-- Fallback token for list indexing; in the C every in-range access is
valid, so this default is never the result of an in-range read. -/
def zeroToken : Token :=
  { type := .TOKEN_FRAME, value := .zero, location := { line := 0, column := 0, file := "" },
    text := "" }

/-- Whitespace-token skipping loop, `parser.c:skip_whitespace` (the
parser-side one): advances `current` past `TOKEN_NEWLINE` and
`TOKEN_WHITESPACE` tokens. -/
def parser_skip_ws_go : Nat → Parser → Parser
  | 0, p => p
  | Nat.succ fuel, p =>
    if p.current < p.token_count then
      let t := p.tokens.getD p.current zeroToken
      if t.type != TokenType.TOKEN_NEWLINE && t.type != TokenType.TOKEN_WHITESPACE then p
      else parser_skip_ws_go fuel { p with current := p.current + 1 }
    else p

/-- Entry point of the parser-side `skip_whitespace`. -/
def parser_skip_whitespace (p : Parser) : Parser :=
  parser_skip_ws_go (p.token_count + 1) p

/-- Token lookahead, `parser.c:parser_peek`: skips whitespace tokens,
then returns the current token (or a synthesized EOF token). -/
def parser_peek (p : Parser) : Token × Parser :=
  let p2 := parser_skip_whitespace p
  if p2.current < p2.token_count then (p2.tokens.getD p2.current zeroToken, p2)
  else (eofToken, p2)

/-- Token consumption, `parser.c:parser_advance`: returns the token at
the current index unfiltered (no whitespace skipping) and moves on. -/
def parser_advance (p : Parser) : Token × Parser :=
  if p.current < p.token_count then
    (p.tokens.getD p.current zeroToken, { p with current := p.current + 1 })
  else (eofToken, p)

/-- Conditional consumption, `parser.c:parser_match`. -/
def parser_match (p : Parser) (t : TokenType) : Bool × Parser :=
  let r := parser_peek p
  if r.1.type == t then (true, (parser_advance r.2).2)
  else (false, r.2)

/-- Expected-token consumption, `parser.c:parser_consume`; on failure
the C only prints a message and continues with the current token. -/
def parser_consume (p : Parser) (t : TokenType) : Parser :=
  (parser_match p t).2

/-- Block node constructor, `parser.c:make_block_node`. -/
def make_block_node (loc : SourceLocation) (stmts : List AstNode) : AstNode :=
  .mk (.block stmts) loc none

/-- Literal node constructor, `parser.c:make_expr_literal` (note that
it re-parses the token text with `atoll`/`atof` instead of using the
token's payload). -/
def make_expr_literal (tok : Token) : AstNode :=
  let payload : LitVal :=
    match tok.type with
    | .TOKEN_INTEGER => .ival (atollModel tok.text)
    | .TOKEN_FLOAT => .fval tok.text
    | .TOKEN_BOOL_TRUE => .bval true
    | .TOKEN_BOOL_FALSE => .bval false
    | .TOKEN_STRING => .sval tok.text
    | _ => .sval tok.text
  .mk (.exprLiteral tok.type payload) tok.location none

/-- Identifier node constructor, `parser.c:make_expr_identifier`. -/
def make_expr_identifier (tok : Token) : AstNode :=
  .mk (.exprIdentifier tok.text) tok.location none

/-- Binary node constructor, `parser.c:make_expr_binary`. -/
def make_expr_binary (op : TokenType) (l r : Option AstNode) (loc : SourceLocation) : AstNode :=
  .mk (.exprBinary op l r) loc none

/-- Unary node constructor, `parser.c:make_expr_unary`. -/
def make_expr_unary (op : TokenType) (e : Option AstNode) (loc : SourceLocation) : AstNode :=
  .mk (.exprUnary op e) loc none

/-- Zero location (what `calloc` leaves in nodes whose `loc` is never
assigned, e.g. call nodes). -/
def zeroLoc : SourceLocation := { line := 0, column := 0, file := "" }

mutual
/-- Program entry, `parser.c:parse_program`. -/
def parse_program : Nat → Parser → Option AstNode × Parser
  | 0, p => (none, p)
  | Nat.succ fuel, p =>
    let s := parser_peek p
    parse_program_loop fuel s.2 s.1.location []

/-- The `while (peek != EOF)` loop of `parse_program`. -/
def parse_program_loop : Nat → Parser → SourceLocation → List AstNode →
    Option AstNode × Parser
  | 0, p, _, _ => (none, p)
  | Nat.succ fuel, p, loc, acc =>
    let s := parser_peek p
    if s.1.type == TokenType.TOKEN_EOF then
      (some (make_block_node loc acc.reverse), s.2)
    else
      let d := parse_declaration fuel s.2
      match d.1 with
      | none => parse_program_loop fuel (parser_advance d.2).2 loc acc
      | some n => parse_program_loop fuel d.2 loc (n :: acc)

/-- Declaration dispatch, `parser.c:parse_declaration`. -/
def parse_declaration : Nat → Parser → Option AstNode × Parser
  | 0, p => (none, p)
  | Nat.succ fuel, p =>
    let s := parser_peek p
    match s.1.type with
    | .TOKEN_FRAME => parse_frame fuel s.2
    | .TOKEN_FUNC => parse_func_decl fuel s.2
    | .TOKEN_CLASS => parse_class_decl fuel s.2
    | .TOKEN_IMPORT => parse_import_decl fuel s.2
    | .TOKEN_VAR => parse_var_decl fuel s.2
    | .TOKEN_CONST => parse_var_decl fuel s.2
    | _ => parse_statement fuel s.2

/-- Statement dispatch, `parser.c:parse_statement`. -/
def parse_statement : Nat → Parser → Option AstNode × Parser
  | 0, p => (none, p)
  | Nat.succ fuel, p =>
    let s := parser_peek p
    match s.1.type with
    | .TOKEN_VAR => parse_declaration fuel s.2
    | .TOKEN_CONST => parse_declaration fuel s.2
    | .TOKEN_IF => parse_if_stmt fuel s.2
    | .TOKEN_WHILE => parse_while_stmt fuel s.2
    | .TOKEN_FOR => parse_for_stmt fuel s.2
    | .TOKEN_SWITCH => parse_switch_stmt fuel s.2
    | .TOKEN_TRY => parse_try_catch_stmt fuel s.2
    | .TOKEN_ON_ERROR => parse_on_error_stmt fuel s.2
    | .TOKEN_RETURN => parse_return_stmt fuel s.2
    | .TOKEN_LBRACE => parse_block fuel s.2
    | _ => parse_expression_stmt fuel s.2

/-- Braced block, `parser.c:parse_block`. -/
def parse_block : Nat → Parser → Option AstNode × Parser
  | 0, p => (none, p)
  | Nat.succ fuel, p =>
    let b := parser_advance p
    parse_block_loop fuel b.2 b.1.location []

/-- Statement loop of `parse_block`. -/
def parse_block_loop : Nat → Parser → SourceLocation → List AstNode →
    Option AstNode × Parser
  | 0, p, _, _ => (none, p)
  | Nat.succ fuel, p, loc, acc =>
    let s := parser_peek p
    if s.1.type != TokenType.TOKEN_RBRACE && s.1.type != TokenType.TOKEN_EOF then
      let st := parse_statement fuel s.2
      match st.1 with
      | none => parse_block_loop fuel (parser_advance st.2).2 loc acc
      | some n => parse_block_loop fuel st.2 loc (n :: acc)
    else
      let p2 := parser_consume s.2 .TOKEN_RBRACE
      (some (make_block_node loc acc.reverse), p2)

/-- Expression statement, `parser.c:parse_expression_stmt`.  (When the
expression is null the C would dereference a null pointer reading
`expr->loc`; that path is modelled with the zero location and is not
reached by any run studied here.) -/
def parse_expression_stmt : Nat → Parser → Option AstNode × Parser
  | 0, p => (none, p)
  | Nat.succ fuel, p =>
    let e := parse_expression fuel p
    let m := parser_match e.2 .TOKEN_SEMICOLON
    let loc := match e.1 with
      | some n => n.loc
      | none => zeroLoc
    (some (.mk (.exprStmt e.1) loc none), m.2)

/-- Frame declaration, `parser.c:parse_frame`. -/
def parse_frame : Nat → Parser → Option AstNode × Parser
  | 0, p => (none, p)
  | Nat.succ fuel, p =>
    let ft := parser_advance p
    let idt := parser_advance ft.2
    let p2 := parser_consume idt.2 .TOKEN_LBRACE
    parse_frame_loop fuel p2 ft.1.location idt.1.text []

/-- Body loop of `parse_frame` (with its explicit `skip_whitespace`). -/
def parse_frame_loop : Nat → Parser → SourceLocation → String → List AstNode →
    Option AstNode × Parser
  | 0, p, _, _, _ => (none, p)
  | Nat.succ fuel, p, loc, name, acc =>
    let s := parser_peek p
    if s.1.type != TokenType.TOKEN_RBRACE && s.1.type != TokenType.TOKEN_EOF then
      let p2 := parser_skip_whitespace s.2
      let d := parse_declaration fuel p2
      match d.1 with
      | none => parse_frame_loop fuel (parser_advance d.2).2 loc name acc
      | some n => parse_frame_loop fuel d.2 loc name (n :: acc)
    else
      let p2 := parser_consume s.2 .TOKEN_RBRACE
      (some (.mk (.frameDecl name acc.reverse) loc none), p2)

/-- Variable / constant declaration, `parser.c:parse_var_decl`. -/
def parse_var_decl : Nat → Parser → Option AstNode × Parser
  | 0, p => (none, p)
  | Nat.succ fuel, p =>
    let dt := parser_advance p
    let is_const := dt.1.type == TokenType.TOKEN_CONST
    let nt := parser_advance dt.2
    let m := parser_match nt.2 .TOKEN_ASSIGN
    let e := if m.1 then parse_expression fuel m.2 else ((none : Option AstNode), m.2)
    let m2 := parser_match e.2 .TOKEN_SEMICOLON
    let core :=
      if is_const then AstCore.constDecl nt.1.text is_const e.1
      else AstCore.varDecl nt.1.text is_const e.1
    (some (.mk core dt.1.location none), m2.2)

/-- Function declaration, `parser.c:parse_func_decl`. -/
def parse_func_decl : Nat → Parser → Option AstNode × Parser
  | 0, p => (none, p)
  | Nat.succ fuel, p =>
    let ft := parser_advance p
    let nt := parser_advance ft.2
    let p2 := parser_consume nt.2 .TOKEN_LPAREN
    let s := parser_peek p2
    if s.1.type != TokenType.TOKEN_RPAREN && s.1.type != TokenType.TOKEN_EOF then
      parse_func_params_loop fuel s.2 ft.1 nt.1 []
    else
      parse_func_after_params fuel s.2 ft.1 nt.1 []

/-- Parameter loop of `parse_func_decl`. -/
def parse_func_params_loop : Nat → Parser → Token → Token → List String →
    Option AstNode × Parser
  | 0, p, _, _, _ => (none, p)
  | Nat.succ fuel, p, ft, nt, params =>
    let pa := parser_advance p
    let params2 := params ++ [pa.1.text]
    let m := parser_match pa.2 .TOKEN_COMMA
    if m.1 then
      let s := parser_peek m.2
      if s.1.type != TokenType.TOKEN_RPAREN && s.1.type != TokenType.TOKEN_EOF then
        parse_func_params_loop fuel s.2 ft nt params2
      else parse_func_after_params fuel s.2 ft nt params2
    else parse_func_after_params fuel m.2 ft nt params2

/-- Continuation of `parse_func_decl` after the parameter list. -/
def parse_func_after_params : Nat → Parser → Token → Token → List String →
    Option AstNode × Parser
  | 0, p, _, _, _ => (none, p)
  | Nat.succ fuel, p, ft, nt, params =>
    let p1 := parser_consume p .TOKEN_RPAREN
    let p2 := parser_consume p1 .TOKEN_LBRACE
    parse_func_body_loop fuel p2 ft nt params []

/-- Body loop of `parse_func_decl`. -/
def parse_func_body_loop : Nat → Parser → Token → Token → List String → List AstNode →
    Option AstNode × Parser
  | 0, p, _, _, _, _ => (none, p)
  | Nat.succ fuel, p, ft, nt, params, acc =>
    let s := parser_peek p
    if s.1.type != TokenType.TOKEN_RBRACE && s.1.type != TokenType.TOKEN_EOF then
      let st := parse_statement fuel s.2
      match st.1 with
      | none => parse_func_body_loop fuel (parser_advance st.2).2 ft nt params acc
      | some n => parse_func_body_loop fuel st.2 ft nt params (n :: acc)
    else
      let p2 := parser_consume s.2 .TOKEN_RBRACE
      let bodyBlock := make_block_node ft.location acc.reverse
      (some (.mk (.funcDecl nt.text params (some bodyBlock)) ft.location none), p2)

/-- Class declaration, `parser.c:parse_class_decl`. -/
def parse_class_decl : Nat → Parser → Option AstNode × Parser
  | 0, p => (none, p)
  | Nat.succ fuel, p =>
    let ct := parser_advance p
    let nt := parser_advance ct.2
    let p2 := parser_consume nt.2 .TOKEN_LBRACE
    parse_class_loop fuel p2 ct.1.location nt.1.text []

/-- Member loop of `parse_class_decl`. -/
def parse_class_loop : Nat → Parser → SourceLocation → String → List AstNode →
    Option AstNode × Parser
  | 0, p, _, _, _ => (none, p)
  | Nat.succ fuel, p, loc, name, acc =>
    let s := parser_peek p
    if s.1.type != TokenType.TOKEN_RBRACE && s.1.type != TokenType.TOKEN_EOF then
      let d := parse_declaration fuel s.2
      match d.1 with
      | none => parse_class_loop fuel (parser_advance d.2).2 loc name acc
      | some n => parse_class_loop fuel d.2 loc name (n :: acc)
    else
      let p2 := parser_consume s.2 .TOKEN_RBRACE
      (some (.mk (.classDecl name acc.reverse) loc none), p2)

/-- Import declaration, `parser.c:parse_import_decl` (stored as a
literal node with `literal_type = TOKEN_IMPORT`). -/
def parse_import_decl : Nat → Parser → Option AstNode × Parser
  | 0, p => (none, p)
  | Nat.succ _fuel, p =>
    let it := parser_advance p
    let mt := parser_advance it.2
    let m := parser_match mt.2 .TOKEN_SEMICOLON
    (some (.mk (.exprLiteral .TOKEN_IMPORT (.sval mt.1.text)) it.1.location none), m.2)

/-- If statement, `parser.c:parse_if_stmt` (builds an `AST_NODE_IF`). -/
def parse_if_stmt : Nat → Parser → Option AstNode × Parser
  | 0, p => (none, p)
  | Nat.succ fuel, p =>
    let it := parser_advance p
    let p1 := parser_consume it.2 .TOKEN_LPAREN
    let ce := parse_expression fuel p1
    let p2 := parser_consume ce.2 .TOKEN_RPAREN
    let tb := parse_statement fuel p2
    let m := parser_match tb.2 .TOKEN_ELSE
    let eb := if m.1 then parse_statement fuel m.2 else ((none : Option AstNode), m.2)
    (some (.mk (.ifNode ce.1 tb.1 eb.1) it.1.location none), eb.2)

/-- While statement, `parser.c:parse_while_stmt`. -/
def parse_while_stmt : Nat → Parser → Option AstNode × Parser
  | 0, p => (none, p)
  | Nat.succ fuel, p =>
    let wt := parser_advance p
    let p1 := parser_consume wt.2 .TOKEN_LPAREN
    let ce := parse_expression fuel p1
    let p2 := parser_consume ce.2 .TOKEN_RPAREN
    let b := parse_statement fuel p2
    (some (.mk (.whileStmt ce.1 b.1) wt.1.location none), b.2)

/-- For statement, `parser.c:parse_for_stmt`. -/
def parse_for_stmt : Nat → Parser → Option AstNode × Parser
  | 0, p => (none, p)
  | Nat.succ fuel, p =>
    let ft := parser_advance p
    let p1 := parser_consume ft.2 .TOKEN_LPAREN
    let ie := parse_expression fuel p1
    let p2 := parser_consume ie.2 .TOKEN_SEMICOLON
    let ce := parse_expression fuel p2
    let p3 := parser_consume ce.2 .TOKEN_SEMICOLON
    let ne := parse_expression fuel p3
    let p4 := parser_consume ne.2 .TOKEN_RPAREN
    let b := parse_statement fuel p4
    (some (.mk (.forStmt ie.1 ce.1 ne.1 b.1) ft.1.location none), b.2)

/-- Switch statement, `parser.c:parse_switch_stmt` (modelled, as in the
C, by a binary node with op `TOKEN_SWITCH`). -/
def parse_switch_stmt : Nat → Parser → Option AstNode × Parser
  | 0, p => (none, p)
  | Nat.succ fuel, p =>
    let st := parser_advance p
    let p1 := parser_consume st.2 .TOKEN_LPAREN
    let e := parse_expression fuel p1
    let p2 := parser_consume e.2 .TOKEN_RPAREN
    let p3 := parser_consume p2 .TOKEN_LBRACE
    parse_switch_loop fuel p3 st.1.location e.1 []

/-- Case loop of `parse_switch_stmt`. -/
def parse_switch_loop : Nat → Parser → SourceLocation → Option AstNode → List AstNode →
    Option AstNode × Parser
  | 0, p, _, _, _ => (none, p)
  | Nat.succ fuel, p, loc, e, acc =>
    let s := parser_peek p
    if s.1.type != TokenType.TOKEN_RBRACE && s.1.type != TokenType.TOKEN_EOF then
      let st := parse_statement fuel s.2
      match st.1 with
      | none => parse_switch_loop fuel (parser_advance st.2).2 loc e acc
      | some n => parse_switch_loop fuel st.2 loc e (n :: acc)
    else
      let p2 := parser_consume s.2 .TOKEN_RBRACE
      let caseBlock := make_block_node loc acc.reverse
      (some (make_expr_binary .TOKEN_SWITCH e (some caseBlock) loc), p2)

/-- Try/catch, `parser.c:parse_try_catch_stmt` (the catch block is
stored in `next_sibling`). -/
def parse_try_catch_stmt : Nat → Parser → Option AstNode × Parser
  | 0, p => (none, p)
  | Nat.succ fuel, p =>
    let tt := parser_advance p
    let tb := parse_statement fuel tt.2
    let m := parser_match tb.2 .TOKEN_CATCH
    let cb := if m.1 then parse_statement fuel m.2 else ((none : Option AstNode), m.2)
    (some (.mk (.tryCatch tb.1) tt.1.location cb.1), cb.2)

/-- On-error block, `parser.c:parse_on_error_stmt`. -/
def parse_on_error_stmt : Nat → Parser → Option AstNode × Parser
  | 0, p => (none, p)
  | Nat.succ fuel, p =>
    let et := parser_advance p
    let p1 := parser_consume et.2 .TOKEN_LBRACE
    parse_on_error_loop fuel p1 et.1.location []

/-- Statement loop of `parse_on_error_stmt`. -/
def parse_on_error_loop : Nat → Parser → SourceLocation → List AstNode →
    Option AstNode × Parser
  | 0, p, _, _ => (none, p)
  | Nat.succ fuel, p, loc, acc =>
    let s := parser_peek p
    if s.1.type != TokenType.TOKEN_RBRACE && s.1.type != TokenType.TOKEN_EOF then
      let st := parse_statement fuel s.2
      match st.1 with
      | none => parse_on_error_loop fuel (parser_advance st.2).2 loc acc
      | some n => parse_on_error_loop fuel st.2 loc (n :: acc)
    else
      let p2 := parser_consume s.2 .TOKEN_RBRACE
      let blk := make_block_node loc acc.reverse
      (some (.mk (.errorHandler (some blk)) loc none), p2)

/-- Return statement, `parser.c:parse_return_stmt`. -/
def parse_return_stmt : Nat → Parser → Option AstNode × Parser
  | 0, p => (none, p)
  | Nat.succ fuel, p =>
    let rt := parser_advance p
    let e := parse_expression fuel rt.2
    let m := parser_match e.2 .TOKEN_SEMICOLON
    (some (.mk (.returnStmt e.1) rt.1.location none), m.2)

/-- Expression entry, `parser.c:parse_expression`. -/
def parse_expression : Nat → Parser → Option AstNode × Parser
  | 0, p => (none, p)
  | Nat.succ fuel, p => parse_assignment fuel p

/-- Right-associative assignment level, `parser.c:parse_assignment`. -/
def parse_assignment : Nat → Parser → Option AstNode × Parser
  | 0, p => (none, p)
  | Nat.succ fuel, p =>
    let l := parse_logical_or fuel p
    let s := parser_peek l.2
    if s.1.type == TokenType.TOKEN_ASSIGN || s.1.type == TokenType.TOKEN_PLUS_ASSIGN ||
       s.1.type == TokenType.TOKEN_MINUS_ASSIGN || s.1.type == TokenType.TOKEN_STAR_ASSIGN ||
       s.1.type == TokenType.TOKEN_SLASH_ASSIGN || s.1.type == TokenType.TOKEN_MOD_ASSIGN then
      let a := parser_advance s.2
      let r := parse_assignment fuel a.2
      (some (make_expr_binary s.1.type l.1 r.1 s.1.location), r.2)
    else (l.1, s.2)

/-- Logical-or level, `parser.c:parse_logical_or`. -/
def parse_logical_or : Nat → Parser → Option AstNode × Parser
  | 0, p => (none, p)
  | Nat.succ fuel, p =>
    let n := parse_logical_and fuel p
    parse_logical_or_loop fuel n.2 n.1

/-- Operator loop of `parse_logical_or`. -/
def parse_logical_or_loop : Nat → Parser → Option AstNode → Option AstNode × Parser
  | 0, p, n => (n, p)
  | Nat.succ fuel, p, n =>
    let s := parser_peek p
    if s.1.type == TokenType.TOKEN_OR then
      let a := parser_advance s.2
      let r := parse_logical_and fuel a.2
      parse_logical_or_loop fuel r.2 (some (make_expr_binary s.1.type n r.1 s.1.location))
    else (n, s.2)

/-- Logical-and level, `parser.c:parse_logical_and`. -/
def parse_logical_and : Nat → Parser → Option AstNode × Parser
  | 0, p => (none, p)
  | Nat.succ fuel, p =>
    let n := parse_bitwise_or fuel p
    parse_logical_and_loop fuel n.2 n.1

/-- Operator loop of `parse_logical_and`. -/
def parse_logical_and_loop : Nat → Parser → Option AstNode → Option AstNode × Parser
  | 0, p, n => (n, p)
  | Nat.succ fuel, p, n =>
    let s := parser_peek p
    if s.1.type == TokenType.TOKEN_AND then
      let a := parser_advance s.2
      let r := parse_bitwise_or fuel a.2
      parse_logical_and_loop fuel r.2 (some (make_expr_binary s.1.type n r.1 s.1.location))
    else (n, s.2)

/-- Bitwise-or level, `parser.c:parse_bitwise_or`. -/
def parse_bitwise_or : Nat → Parser → Option AstNode × Parser
  | 0, p => (none, p)
  | Nat.succ fuel, p =>
    let n := parse_bitwise_xor fuel p
    parse_bitwise_or_loop fuel n.2 n.1

/-- Operator loop of `parse_bitwise_or`. -/
def parse_bitwise_or_loop : Nat → Parser → Option AstNode → Option AstNode × Parser
  | 0, p, n => (n, p)
  | Nat.succ fuel, p, n =>
    let s := parser_peek p
    if s.1.type == TokenType.TOKEN_BIT_OR then
      let a := parser_advance s.2
      let r := parse_bitwise_xor fuel a.2
      parse_bitwise_or_loop fuel r.2 (some (make_expr_binary s.1.type n r.1 s.1.location))
    else (n, s.2)

/-- Bitwise-xor level, `parser.c:parse_bitwise_xor`. -/
def parse_bitwise_xor : Nat → Parser → Option AstNode × Parser
  | 0, p => (none, p)
  | Nat.succ fuel, p =>
    let n := parse_bitwise_and fuel p
    parse_bitwise_xor_loop fuel n.2 n.1

/-- Operator loop of `parse_bitwise_xor`. -/
def parse_bitwise_xor_loop : Nat → Parser → Option AstNode → Option AstNode × Parser
  | 0, p, n => (n, p)
  | Nat.succ fuel, p, n =>
    let s := parser_peek p
    if s.1.type == TokenType.TOKEN_BIT_XOR then
      let a := parser_advance s.2
      let r := parse_bitwise_and fuel a.2
      parse_bitwise_xor_loop fuel r.2 (some (make_expr_binary s.1.type n r.1 s.1.location))
    else (n, s.2)

/-- Bitwise-and level, `parser.c:parse_bitwise_and`. -/
def parse_bitwise_and : Nat → Parser → Option AstNode × Parser
  | 0, p => (none, p)
  | Nat.succ fuel, p =>
    let n := parse_equality fuel p
    parse_bitwise_and_loop fuel n.2 n.1

/-- Operator loop of `parse_bitwise_and`. -/
def parse_bitwise_and_loop : Nat → Parser → Option AstNode → Option AstNode × Parser
  | 0, p, n => (n, p)
  | Nat.succ fuel, p, n =>
    let s := parser_peek p
    if s.1.type == TokenType.TOKEN_BIT_AND then
      let a := parser_advance s.2
      let r := parse_equality fuel a.2
      parse_bitwise_and_loop fuel r.2 (some (make_expr_binary s.1.type n r.1 s.1.location))
    else (n, s.2)

/-- Equality level, `parser.c:parse_equality`. -/
def parse_equality : Nat → Parser → Option AstNode × Parser
  | 0, p => (none, p)
  | Nat.succ fuel, p =>
    let n := parse_comparison fuel p
    parse_equality_loop fuel n.2 n.1

/-- Operator loop of `parse_equality`. -/
def parse_equality_loop : Nat → Parser → Option AstNode → Option AstNode × Parser
  | 0, p, n => (n, p)
  | Nat.succ fuel, p, n =>
    let s := parser_peek p
    if s.1.type == TokenType.TOKEN_EQ || s.1.type == TokenType.TOKEN_NEQ then
      let a := parser_advance s.2
      let r := parse_comparison fuel a.2
      parse_equality_loop fuel r.2 (some (make_expr_binary s.1.type n r.1 s.1.location))
    else (n, s.2)

/-- Comparison level, `parser.c:parse_comparison`. -/
def parse_comparison : Nat → Parser → Option AstNode × Parser
  | 0, p => (none, p)
  | Nat.succ fuel, p =>
    let n := parse_term fuel p
    parse_comparison_loop fuel n.2 n.1

/-- Operator loop of `parse_comparison`. -/
def parse_comparison_loop : Nat → Parser → Option AstNode → Option AstNode × Parser
  | 0, p, n => (n, p)
  | Nat.succ fuel, p, n =>
    let s := parser_peek p
    if s.1.type == TokenType.TOKEN_LT || s.1.type == TokenType.TOKEN_GT ||
       s.1.type == TokenType.TOKEN_LTE || s.1.type == TokenType.TOKEN_GTE then
      let a := parser_advance s.2
      let r := parse_term fuel a.2
      parse_comparison_loop fuel r.2 (some (make_expr_binary s.1.type n r.1 s.1.location))
    else (n, s.2)

/-- Additive level, `parser.c:parse_term`. -/
def parse_term : Nat → Parser → Option AstNode × Parser
  | 0, p => (none, p)
  | Nat.succ fuel, p =>
    let n := parse_factor fuel p
    parse_term_loop fuel n.2 n.1

/-- Operator loop of `parse_term`. -/
def parse_term_loop : Nat → Parser → Option AstNode → Option AstNode × Parser
  | 0, p, n => (n, p)
  | Nat.succ fuel, p, n =>
    let s := parser_peek p
    if s.1.type == TokenType.TOKEN_PLUS || s.1.type == TokenType.TOKEN_MINUS then
      let a := parser_advance s.2
      let r := parse_factor fuel a.2
      parse_term_loop fuel r.2 (some (make_expr_binary s.1.type n r.1 s.1.location))
    else (n, s.2)

/-- Multiplicative level, `parser.c:parse_factor`. -/
def parse_factor : Nat → Parser → Option AstNode × Parser
  | 0, p => (none, p)
  | Nat.succ fuel, p =>
    let n := parse_power fuel p
    parse_factor_loop fuel n.2 n.1

/-- Operator loop of `parse_factor`. -/
def parse_factor_loop : Nat → Parser → Option AstNode → Option AstNode × Parser
  | 0, p, n => (n, p)
  | Nat.succ fuel, p, n =>
    let s := parser_peek p
    if s.1.type == TokenType.TOKEN_STAR || s.1.type == TokenType.TOKEN_SLASH ||
       s.1.type == TokenType.TOKEN_PERCENT then
      let a := parser_advance s.2
      let r := parse_power fuel a.2
      parse_factor_loop fuel r.2 (some (make_expr_binary s.1.type n r.1 s.1.location))
    else (n, s.2)

/-- Power level, `parser.c:parse_power`. -/
def parse_power : Nat → Parser → Option AstNode × Parser
  | 0, p => (none, p)
  | Nat.succ fuel, p =>
    let n := parse_unary fuel p
    parse_power_loop fuel n.2 n.1

/-- Operator loop of `parse_power`. -/
def parse_power_loop : Nat → Parser → Option AstNode → Option AstNode × Parser
  | 0, p, n => (n, p)
  | Nat.succ fuel, p, n =>
    let s := parser_peek p
    if s.1.type == TokenType.TOKEN_POW then
      let a := parser_advance s.2
      let r := parse_unary fuel a.2
      parse_power_loop fuel r.2 (some (make_expr_binary s.1.type n r.1 s.1.location))
    else (n, s.2)

/-- Prefix unary level, `parser.c:parse_unary`. -/
def parse_unary : Nat → Parser → Option AstNode × Parser
  | 0, p => (none, p)
  | Nat.succ fuel, p =>
    let s := parser_peek p
    if s.1.type == TokenType.TOKEN_MINUS || s.1.type == TokenType.TOKEN_PLUS ||
       s.1.type == TokenType.TOKEN_NOT || s.1.type == TokenType.TOKEN_BIT_NOT ||
       s.1.type == TokenType.TOKEN_INCREMENT || s.1.type == TokenType.TOKEN_DECREMENT then
      let a := parser_advance s.2
      let sub := parse_unary fuel a.2
      (some (make_expr_unary s.1.type sub.1 s.1.location), sub.2)
    else parse_primary fuel s.2

/-- Primary expressions, `parser.c:parse_primary`. -/
def parse_primary : Nat → Parser → Option AstNode × Parser
  | 0, p => (none, p)
  | Nat.succ fuel, p =>
    let s := parser_peek p
    match s.1.type with
    | .TOKEN_DOCSTRING =>
      let a := parser_advance s.2
      (some (.mk (.docstringNode s.1.text) s.1.location none), a.2)
    | .TOKEN_REGEX =>
      let a := parser_advance s.2
      (some (.mk (.regexNode s.1.text) s.1.location none), a.2)
    | .TOKEN_INTERPOLATION_START =>
      let st := parser_advance s.2
      let inner := parse_expression fuel st.2
      let p2 := parser_consume inner.2 .TOKEN_INTERPOLATION_END
      (some (.mk (.exprInterpolation inner.1) st.1.location none), p2)
    | .TOKEN_LPAREN =>
      let a := parser_advance s.2
      let e := parse_expression fuel a.2
      let p2 := parser_consume e.2 .TOKEN_RPAREN
      (e.1, p2)
    | .TOKEN_INTEGER =>
      let lt := parser_advance s.2
      (some (make_expr_literal lt.1), lt.2)
    | .TOKEN_FLOAT =>
      let lt := parser_advance s.2
      (some (make_expr_literal lt.1), lt.2)
    | .TOKEN_STRING =>
      let lt := parser_advance s.2
      (some (make_expr_literal lt.1), lt.2)
    | .TOKEN_BOOL_TRUE =>
      let lt := parser_advance s.2
      (some (make_expr_literal lt.1), lt.2)
    | .TOKEN_BOOL_FALSE =>
      let lt := parser_advance s.2
      (some (make_expr_literal lt.1), lt.2)
    | .TOKEN_IDENTIFIER =>
      let idt := parser_advance s.2
      parse_postfix_loop fuel idt.2 (make_expr_identifier idt.1)
    | _ =>
      let a := parser_advance s.2
      (none, a.2)

/-- Postfix call-tail loop inside `parse_primary`
(`while (parser_peek(parser).type == TOKEN_LPAREN) ...`). -/
def parse_postfix_loop : Nat → Parser → AstNode → Option AstNode × Parser
  | 0, p, n => (some n, p)
  | Nat.succ fuel, p, n =>
    let s := parser_peek p
    if s.1.type == TokenType.TOKEN_LPAREN then
      let a := parser_advance s.2
      let c := parse_call fuel a.2 n
      parse_postfix_loop fuel c.2 c.1
    else (some n, s.2)

/-- Call-argument parsing, `parser.c:parse_call` (the opening paren has
already been consumed; call nodes get the zero location `calloc`
leaves behind). -/
def parse_call : Nat → Parser → AstNode → AstNode × Parser
  | 0, p, callee => (callee, p)
  | Nat.succ fuel, p, callee =>
    let s := parser_peek p
    if s.1.type != TokenType.TOKEN_RPAREN then
      parse_call_args_loop fuel s.2 callee []
    else
      let p2 := parser_consume s.2 .TOKEN_RPAREN
      (.mk (.exprCall (some callee) []) zeroLoc none, p2)

/-- Argument loop of `parse_call` (a `do ... while (match(COMMA))`). -/
def parse_call_args_loop : Nat → Parser → AstNode → List AstNode → AstNode × Parser
  | 0, p, callee, _ => (callee, p)
  | Nat.succ fuel, p, callee, acc =>
    let e := parse_expression fuel p
    let acc2 := match e.1 with
      | some n => acc ++ [n]
      | none => acc
    let m := parser_match e.2 .TOKEN_COMMA
    if m.1 then parse_call_args_loop fuel m.2 callee acc2
    else
      let p2 := parser_consume m.2 .TOKEN_RPAREN
      (.mk (.exprCall (some callee) acc2) zeroLoc none, p2)
end

/-- Fuel bound for one whole parse: every recursive call either
consumes a token or moves one level down a chain of bounded depth, so
a generous multiple of the token count suffices for the concrete runs
studied here. -/
def parserFuel (p : Parser) : Nat := 64 * (p.token_count + 2)

/-- Public entry `parser.c:parser_parse`. -/
def parser_parse (p : Parser) : Option AstNode × Parser :=
  parse_program (parserFuel p) p

/-! ## Symbol table (src/symbol_table/symbol_table.c) -/

/-- Symbol kinds, `include/symbol_table.h`. -/
inductive SymbolKind where
  | SYMBOL_VAR
  | SYMBOL_CONST
  | SYMBOL_FUNC
  | SYMBOL_CLASS
deriving DecidableEq, Repr

/-- Symbol record `(name, kind, register)`. -/
structure Symbol where
  name : String
  kind : SymbolKind
  reg : Int
deriving DecidableEq, Repr

/-- Scope with symbol list and parent link,
`symbol_table.c:scope_create`.  Modelled with value semantics, which is
faithful here because the C only ever adds symbols to the most recently
created scope while it is the current one. -/
inductive Scope where
  | mk (symbols : List Symbol) (parent : Option Scope)

/-- Constructor `symbol_table.c:scope_create`. -/
def scope_create (parent : Option Scope) : Scope :=
  .mk [] parent

/-- Symbol insertion with duplicate check in the current scope only,
`symbol_table.c:scope_add_symbol`. -/
def scope_add_symbol (s : Scope) (name : String) (kind : SymbolKind) (reg : Int) :
    Bool × Scope :=
  match s with
  | .mk symbols parent =>
    if symbols.any (fun sym => sym.name == name) then (false, s)
    else (true, .mk (symbols ++ [{ name, kind, reg }]) parent)

/-- Symbol lookup walking the parent chain,
`symbol_table.c:scope_lookup` (first match in the nearest scope wins). -/
def scope_lookup : Scope → String → Option Symbol
  | .mk symbols parent, name =>
    match symbols.find? (fun sym => sym.name == name) with
    | some sym => some sym
    | none =>
      match parent with
      | some par => scope_lookup par name
      | none => none

/-! ## Semantic pass (src/semantic/semantic.c) -/

/-- Semantic type kinds, `include/semantic.h`. -/
inductive SemanticTypeKind where
  | SEMANTIC_TYPE_UNKNOWN
  | SEMANTIC_TYPE_INT
  | SEMANTIC_TYPE_FLOAT
  | SEMANTIC_TYPE_BOOL
  | SEMANTIC_TYPE_STRING
deriving DecidableEq, Repr

/-- Semantic analysis context (`include/semantic.h`): current scope and
error counter.  The C keeps a non-null scope pointer; `none` models the
null pointer that `exit_scope` can leave at the root (never reached in
the runs studied here). -/
structure SemanticContext where
  current_scope : Option Scope
  error_count : Nat

/-- Initialization, `semantic.c:semantic_init`. -/
def semantic_init : SemanticContext :=
  { current_scope := some (scope_create none), error_count := 0 }

/-- Scope entry, `semantic.c:enter_scope`. -/
def sem_enter_scope (ctx : SemanticContext) : SemanticContext :=
  { ctx with current_scope := some (scope_create ctx.current_scope) }

/-- Scope exit, `semantic.c:exit_scope`. -/
def sem_exit_scope (ctx : SemanticContext) : SemanticContext :=
  match ctx.current_scope with
  | none => ctx
  | some (.mk _ parent) => { ctx with current_scope := parent }

/-- Symbol insertion into the semantic context's current scope (the
null-scope case would crash in C; modelled as a failed insertion). -/
def sem_add_symbol (ctx : SemanticContext) (name : String) (kind : SymbolKind) (reg : Int) :
    Bool × SemanticContext :=
  match ctx.current_scope with
  | none => (false, ctx)
  | some sc =>
    let r := scope_add_symbol sc name kind reg
    (r.1, { ctx with current_scope := some r.2 })

/-- Expression type record, `include/semantic.h:TypeInfo` (the unused
`custom_name` field is omitted). -/
structure TypeInfo where
  kind : SemanticTypeKind
deriving DecidableEq, Repr

/-- The unknown type, default result of `semantic_check_expr`. -/
def unknownType : TypeInfo := { kind := .SEMANTIC_TYPE_UNKNOWN }

/-- The `AST_EXPR_IDENTIFIER` case of `semantic.c:semantic_check_expr`:
an undefined identifier bumps the error counter. -/
def sem_check_identifier (name : String) (ctx : SemanticContext) :
    TypeInfo × SemanticContext :=
  let sym := match ctx.current_scope with
    | some sc => scope_lookup sc name
    | none => none
  match sym with
  | none => (unknownType, { ctx with error_count := ctx.error_count + 1 })
  | some _ => (unknownType, ctx)

/-- The `AST_EXPR_LITERAL` case of `semantic.c:semantic_check_expr`. -/
def sem_check_literal (lt : TokenType) : TypeInfo :=
  match lt with
  | .TOKEN_INTEGER => { kind := .SEMANTIC_TYPE_INT }
  | .TOKEN_FLOAT => { kind := .SEMANTIC_TYPE_FLOAT }
  | .TOKEN_BOOL_TRUE => { kind := .SEMANTIC_TYPE_BOOL }
  | .TOKEN_BOOL_FALSE => { kind := .SEMANTIC_TYPE_BOOL }
  | .TOKEN_STRING => { kind := .SEMANTIC_TYPE_STRING }
  | .TOKEN_DOCSTRING => { kind := .SEMANTIC_TYPE_STRING }
  | _ => unknownType

/-- Result-type computation of the `AST_EXPR_BINARY` case of
`semantic_check_expr`. -/
def sem_binary_result (op : TokenType) (l r : TypeInfo) : TypeInfo :=
  if op == TokenType.TOKEN_PLUS || op == TokenType.TOKEN_MINUS ||
     op == TokenType.TOKEN_STAR || op == TokenType.TOKEN_SLASH then
    if l.kind == SemanticTypeKind.SEMANTIC_TYPE_FLOAT ||
       r.kind == SemanticTypeKind.SEMANTIC_TYPE_FLOAT then { kind := .SEMANTIC_TYPE_FLOAT }
    else { kind := .SEMANTIC_TYPE_INT }
  else if op == TokenType.TOKEN_AND || op == TokenType.TOKEN_OR then
    { kind := .SEMANTIC_TYPE_BOOL }
  else unknownType

/-- Result-type computation of the `AST_EXPR_UNARY` case of
`semantic_check_expr`. -/
def sem_unary_result (op : TokenType) (sub : TypeInfo) : TypeInfo :=
  if op == TokenType.TOKEN_MINUS &&
     (sub.kind == SemanticTypeKind.SEMANTIC_TYPE_FLOAT ||
      sub.kind == SemanticTypeKind.SEMANTIC_TYPE_INT) then sub
  else if op == TokenType.TOKEN_NOT then { kind := .SEMANTIC_TYPE_BOOL }
  else unknownType

/-- Error bump of the non-bool condition checks in
`semantic.c:analyze_statement`. -/
def sem_cond_check (r : TypeInfo × SemanticContext) : SemanticContext :=
  if r.1.kind != SemanticTypeKind.SEMANTIC_TYPE_BOOL &&
     r.1.kind != SemanticTypeKind.SEMANTIC_TYPE_UNKNOWN then
    { r.2 with error_count := r.2.error_count + 1 }
  else r.2

/-- Parameter loop of `semantic.c:analyze_func_decl`. -/
def analyze_params : List String → SemanticContext → SemanticContext
  | [], ctx => ctx
  | p :: rest, ctx => analyze_params rest (sem_add_symbol ctx p .SYMBOL_VAR (-1)).2

mutual
/-- Dispatch walker, `semantic.c:analyze_node`: the `while (node)` loop
over the sibling chain, switching on the node tag.  The bodies of the C
helpers `analyze_statement`, `analyze_var_decl` and `analyze_func_decl`
(each of which merely re-dispatches on the same node) are inlined into
the corresponding cases; likewise the expression cases repeat the
matching `semantic_check_expr` case, because the C passes the very same
node to `semantic_check_expr`. -/
def analyze_node : Option AstNode → SemanticContext → SemanticContext
  | none, ctx => ctx
  | some n, ctx => analyze_node_one n ctx

/-- One iteration of the `analyze_node` loop. -/
def analyze_node_one : AstNode → SemanticContext → SemanticContext
  | .mk core _ next, ctx =>
    let ctx2 :=
      match core with
      | .varDecl name is_const init =>
        -- semantic.c:analyze_var_decl
        let r := sem_add_symbol ctx name (if is_const then .SYMBOL_CONST else .SYMBOL_VAR) (-1)
        let cx := if r.1 then r.2 else { r.2 with error_count := r.2.error_count + 1 }
        (match init with
         | some _ => (sem_check_expr init cx).2
         | none => cx)
      | .funcDecl name params body =>
        -- semantic.c:analyze_func_decl
        let r := sem_add_symbol ctx name .SYMBOL_FUNC (-1)
        let cx := if r.1 then r.2 else { r.2 with error_count := r.2.error_count + 1 }
        let cx2 := analyze_params params (sem_enter_scope cx)
        sem_exit_scope (analyze_node body cx2)
      | .block stmts =>
        sem_exit_scope (analyze_node_list stmts (sem_enter_scope ctx))
      | .ifStmt c t e =>
        -- semantic.c:analyze_statement, AST_NODE_IF_STMT
        let cx := sem_cond_check (sem_check_expr c ctx)
        analyze_node e (analyze_node t cx)
      | .whileStmt c b =>
        -- semantic.c:analyze_statement, AST_NODE_WHILE_STMT
        analyze_node b (sem_cond_check (sem_check_expr c ctx))
      | .forStmt i c inc b =>
        -- semantic.c:analyze_statement, AST_NODE_FOR_STMT
        let cx1 := match i with
          | some _ => analyze_node i ctx
          | none => ctx
        let cx2 := match c with
          | some _ => sem_cond_check (sem_check_expr c cx1)
          | none => cx1
        let cx3 := match inc with
          | some _ => analyze_node inc cx2
          | none => cx2
        analyze_node b cx3
      | .returnStmt e =>
        -- semantic.c:analyze_statement, AST_NODE_RETURN_STMT
        (match e with
         | some _ => (sem_check_expr e ctx).2
         | none => ctx)
      | .exprStmt _ =>
        -- analyze_statement passes the statement node itself to
        -- semantic_check_expr, which hits the default branch: no effect
        ctx
      | .classDecl name _ => (sem_add_symbol ctx name .SYMBOL_CLASS (-1)).2
      | .exprLiteral _ _ => ctx
      | .exprIdentifier name => (sem_check_identifier name ctx).2
      | .exprBinary _ l r =>
        let lr := sem_check_expr l ctx
        (sem_check_expr r lr.2).2
      | .exprUnary _ e => (sem_check_expr e ctx).2
      | .exprCall callee args =>
        sem_check_args args (sem_check_expr callee ctx).2
      | .exprIndex o i =>
        let a := sem_check_expr o ctx
        (sem_check_expr i a.2).2
      | .exprMember o _ => (sem_check_expr o ctx).2
      | .exprInterpolation e => (sem_check_expr e ctx).2
      | _ => ctx
    analyze_node next ctx2

/-- List helper for the statement loop inside the `AST_NODE_BLOCK`
case of `analyze_node`. -/
def analyze_node_list : List AstNode → SemanticContext → SemanticContext
  | [], ctx => ctx
  | n :: rest, ctx => analyze_node_list rest (analyze_node_one n ctx)

/-- Expression checking, `semantic.c:semantic_check_expr` (a null
argument yields the unknown type). -/
def sem_check_expr : Option AstNode → SemanticContext → TypeInfo × SemanticContext
  | none, ctx => (unknownType, ctx)
  | some n, ctx => sem_check_expr_one n ctx

/-- Case analysis of `semantic_check_expr` on a non-null node. -/
def sem_check_expr_one : AstNode → SemanticContext → TypeInfo × SemanticContext
  | .mk core _ _, ctx =>
    match core with
    | .exprLiteral lt _ => (sem_check_literal lt, ctx)
    | .exprIdentifier name => sem_check_identifier name ctx
    | .exprBinary op l r =>
      let lr := sem_check_expr l ctx
      let rr := sem_check_expr r lr.2
      (sem_binary_result op lr.1 rr.1, rr.2)
    | .exprUnary op e =>
      let sr := sem_check_expr e ctx
      (sem_unary_result op sr.1, sr.2)
    | .exprCall callee args =>
      let cr := sem_check_expr callee ctx
      (unknownType, sem_check_args args cr.2)
    | .exprIndex o i =>
      let a := sem_check_expr o ctx
      let b := sem_check_expr i a.2
      (unknownType, b.2)
    | .exprMember o _ =>
      let a := sem_check_expr o ctx
      (unknownType, a.2)
    | .exprInterpolation e =>
      let a := sem_check_expr e ctx
      ({ kind := .SEMANTIC_TYPE_STRING }, a.2)
    | _ => (unknownType, ctx)

/-- Argument loop of the `AST_EXPR_CALL` case of
`semantic_check_expr`. -/
def sem_check_args : List AstNode → SemanticContext → SemanticContext
  | [], ctx => ctx
  | a :: rest, ctx => sem_check_args rest (sem_check_expr_one a ctx).2
end

/-- Top-level `semantic.c:semantic_analyze` (the control-flow pass is a
stub in the C). -/
def semantic_analyze (root : Option AstNode) (ctx : SemanticContext) : SemanticContext :=
  match root with
  | none => ctx
  | some _ => analyze_node root ctx

/-! ## Instructions and bytecode (include/vm_common.h, src/compiler/bytecode.c) -/

/-- Opcodes, `include/vm_common.h:VMOpcode`. -/
inductive VMOpcode where
  | OP_NOP
  | OP_LOAD_CONST
  | OP_LOAD_CONST_FLOAT
  | OP_LOAD_CONST_STR
  | OP_MOVE
  | OP_ADD
  | OP_SUB
  | OP_MUL
  | OP_DIV
  | OP_EQ
  | OP_NEQ
  | OP_JUMP
  | OP_JUMP_IF_ZERO
  | OP_CALL
  | OP_CALL_NATIVE
  | OP_RET
  | OP_HALT
  | OP_NEWOBJ
  | OP_SETPROP
  | OP_GETPROP
  | OP_CORO_INIT
  | OP_CORO_YIELD
  | OP_CORO_RESUME
deriving DecidableEq, Repr

/-- Instruction with four `int` operands, `include/vm_common.h`. -/
structure Instr where
  opcode : VMOpcode
  operand1 : Int
  operand2 : Int
  operand3 : Int
  operand4 : Int
deriving DecidableEq, Repr

instance : Inhabited Instr :=
  ⟨{ opcode := .OP_NOP, operand1 := 0, operand2 := 0, operand3 := 0, operand4 := 0 }⟩

/-- Bytecode: instruction list plus string constant pool,
`src/compiler/bytecode.h` (the capacity bookkeeping of the growable
arrays is invisible at this level and omitted). -/
structure Bytecode where
  instructions : List Instr
  constant_pool : List String
deriving DecidableEq, Repr

/-- Constructor `bytecode.c:bytecode_create`. -/
def bytecode_create : Bytecode :=
  { instructions := [], constant_pool := [] }

/-- `bytecode.c:bytecode_add_instruction` (operand4 defaults to 0). -/
def bytecode_add_instruction (bc : Bytecode) (op : VMOpcode) (o1 o2 o3 : Int) : Bytecode :=
  { bc with instructions :=
      bc.instructions ++ [{ opcode := op, operand1 := o1, operand2 := o2, operand3 := o3,
                            operand4 := 0 }] }

/-- `bytecode.c:bytecode_add_instruction_ex` (all four operands). -/
def bytecode_add_instruction_ex (bc : Bytecode) (op : VMOpcode) (o1 o2 o3 o4 : Int) :
    Bytecode :=
  { bc with instructions :=
      bc.instructions ++ [{ opcode := op, operand1 := o1, operand2 := o2, operand3 := o3,
                            operand4 := o4 }] }

/-- `bytecode.c:bytecode_add_constant_str`: appends and returns the new
index. -/
def bytecode_add_constant_str (bc : Bytecode) (s : String) : Int × Bytecode :=
  ((bc.constant_pool.length : Int), { bc with constant_pool := bc.constant_pool ++ [s] })

/-! ## Compiler (src/compiler/compiler.c) -/

/-- Compiler state: the C keeps `next_register`, `current_scope`, the
function table and the bytecode under construction as globals /
out-parameters of `compile_node`; they are bundled here.  `aborted`
records the places where the C calls `exit(1)` (function-table
overflow); once it is set the modelled run no longer corresponds to a
completed C compile. -/
structure CState where
  next_register : Int
  current_scope : Option Scope
  function_table : List (String × Int)
  bc : Bytecode
  aborted : Bool

/-- `compiler.c:add_function_entry` (`MAX_FUNCTIONS` is 64; on overflow
the C exits). -/
def add_function_entry (st : CState) (name : String) (address : Int) : CState :=
  if st.function_table.length < 64 then
    { st with function_table := st.function_table ++ [(name, address)] }
  else { st with aborted := true }

/-- `compiler.c:lookup_function_address`: first match or `-1`. -/
def lookup_function_address (st : CState) (name : String) : Int :=
  match st.function_table.find? (fun p => p.1 == name) with
  | some p => p.2
  | none => -1

/-- Instruction emission into the compiler state. -/
def emit (st : CState) (op : VMOpcode) (o1 o2 o3 : Int) : CState :=
  { st with bc := bytecode_add_instruction st.bc op o1 o2 o3 }

/-- Four-operand instruction emission into the compiler state. -/
def emit_ex (st : CState) (op : VMOpcode) (o1 o2 o3 o4 : Int) : CState :=
  { st with bc := bytecode_add_instruction_ex st.bc op o1 o2 o3 o4 }

/-- Back-patching `bc->instructions[idx].operand1 =
(int)bc->instruction_count` as done in the `AST_NODE_IF` /
`AST_NODE_WHILE_STMT` / `AST_NODE_FOR_STMT` cases of `compile_node`. -/
def patch_jump_target (st : CState) (idx : Nat) : CState :=
  let old := st.bc.instructions.getD idx default
  let patched := { old with operand1 := (st.bc.instructions.length : Int) }
  { st with bc := { st.bc with instructions := st.bc.instructions.set idx patched } }

/-- Truncating cast from C `long long` to C `int` (used by the
`(int)val` cast when emitting `OP_LOAD_CONST`). -/
def toCInt (v : Int) : Int :=
  (v + 2 ^ 31) % 2 ^ 32 - 2 ^ 31

/-- Stand-in for the `(int)(intptr_t)expr->as.literal.str_val` cast in
the string-literal case of `compile_expression`: the C truncates the
heap address of the AST node's string to 32 bits, an
allocation-dependent value that has no static meaning.  The model uses
the representative 0; no claim here depends on this operand, and the VM
never reads the constant pool through it (see theorem C2). -/
def ast_string_pointer (_s : String) : Int := 0

/-- Parameter registration loop of the `AST_NODE_FUNC_DECL` case of
`compile_node`: parameter `i` is bound to register `i`. -/
def add_params_to_scope (sc : Scope) (params : List String) : Scope :=
  (params.enum).foldl
    (fun s p => (scope_add_symbol s p.2 .SYMBOL_VAR (p.1 : Int)).2) sc

/-- MOVE-emission loop of the bytecode-function-call branch of
`compile_expression` (`OP_MOVE i, arg_regs[i]`). -/
def emit_arg_moves (st : CState) (arg_regs : List Int) : CState :=
  (arg_regs.enum).foldl
    (fun s p => emit s .OP_MOVE (p.1 : Int) p.2 0) st

mutual
/-- Statement/declaration compilation, `compiler.c:compile_node`
(including the trailing `next_sibling` recursion). -/
def compile_node : Option AstNode → CState → CState
  | none, st => st
  | some n, st => compile_node_one n st

/-- One node of `compile_node` (the big `switch`). -/
def compile_node_one : AstNode → CState → CState
  | .mk core _ next, st =>
    let st2 :=
      match core with
      | .frameDecl name body =>
        let s1 := compile_node_list body st
        if name == "Main" then
          let main_addr := lookup_function_address s1 "main"
          if 0 ≤ main_addr then
            emit (emit s1 .OP_CALL main_addr 0 0) .OP_HALT 0 0 0
          else s1
        else s1
      | .block stmts => compile_node_list stmts st
      | .varDecl _ _ init =>
        (match init with
         | some _ => (compile_expression init st).2
         | none => st)
      | .exprStmt e => (compile_expression e st).2
      | .ifNode cond thenB elseB =>
        let r := compile_expression cond st
        let jump_index := r.2.bc.instructions.length
        let s2 := emit r.2 .OP_JUMP_IF_ZERO 0 r.1 0
        let s3 := compile_node thenB s2
        (match elseB with
         | some _ =>
           let else_jump_index := s3.bc.instructions.length
           let s4 := emit s3 .OP_JUMP 0 0 0
           let s5 := patch_jump_target s4 jump_index
           let s6 := compile_node elseB s5
           patch_jump_target s6 else_jump_index
         | none => patch_jump_target s3 jump_index)
      | .whileStmt cond body =>
        let loop_start := (st.bc.instructions.length : Int)
        let r := compile_expression cond st
        let jump_index := r.2.bc.instructions.length
        let s2 := emit r.2 .OP_JUMP_IF_ZERO 0 r.1 0
        let s3 := compile_node body s2
        let s4 := emit s3 .OP_JUMP loop_start 0 0
        patch_jump_target s4 jump_index
      | .forStmt init cond incr body =>
        let s0 := compile_node init st
        let loop_start := (s0.bc.instructions.length : Int)
        let r := compile_expression cond s0
        let jump_index := r.2.bc.instructions.length
        let s2 := emit r.2 .OP_JUMP_IF_ZERO 0 r.1 0
        let s3 := compile_node body s2
        let s4 := compile_node incr s3
        let s5 := emit s4 .OP_JUMP loop_start 0 0
        patch_jump_target s5 jump_index
      | .returnStmt e =>
        emit (compile_expression e st).2 .OP_RET 0 0 0
      | .funcDecl name params body =>
        let func_address := (st.bc.instructions.length : Int)
        let s1 := add_function_entry st name func_address
        let old_scope := s1.current_scope
        let new_scope := add_params_to_scope (scope_create old_scope) params
        let saved_register := s1.next_register
        let s2 := { s1 with current_scope := some new_scope,
                            next_register := (params.length : Int) }
        let s3 := compile_node body s2
        let s4 := emit s3 .OP_RET 0 0 0
        { s4 with current_scope := old_scope, next_register := saved_register }
      | .classDecl _ members => compile_node_list members st
      | _ => st
    compile_node next st2

/-- Loop over statement arrays in `compile_node` (frame bodies, blocks,
class members). -/
def compile_node_list : List AstNode → CState → CState
  | [], st => st
  | n :: rest, st => compile_node_list rest (compile_node_one n st)

/-- Expression compilation, `compiler.c:compile_expression`; returns
the register holding the result (or `-1`, as the C does for null or
unsupported expressions). -/
def compile_expression : Option AstNode → CState → Int × CState
  | none, st => (-1, st)
  | some n, st => compile_expression_one n st

/-- Case analysis of `compile_expression` on a non-null node. -/
def compile_expression_one : AstNode → CState → Int × CState
  | .mk core _ _, st =>
    match core with
    | .exprLiteral lt payload =>
      (match lt with
       | .TOKEN_INTEGER =>
         let r := st.next_register
         let v := match payload with
           | .ival v => v
           | _ => 0
         let s2 := emit { st with next_register := r + 1 } .OP_LOAD_CONST r (toCInt v) 0
         (r, s2)
       | .TOKEN_FLOAT =>
         let r := st.next_register
         let s2 := emit { st with next_register := r + 1 } .OP_LOAD_CONST_FLOAT r 0 0
         (r, s2)
       | .TOKEN_STRING =>
         let r := st.next_register
         let sv := match payload with
           | .sval s => s
           | _ => ""
         let s2 := emit { st with next_register := r + 1 } .OP_LOAD_CONST_STR r
           (ast_string_pointer sv) 0
         (r, s2)
       | .TOKEN_DOCSTRING =>
         let r := st.next_register
         let sv := match payload with
           | .sval s => s
           | _ => ""
         let s2 := emit { st with next_register := r + 1 } .OP_LOAD_CONST_STR r
           (ast_string_pointer sv) 0
         (r, s2)
       | .TOKEN_REGEX =>
         let r := st.next_register
         let sv := match payload with
           | .sval s => s
           | _ => ""
         let s2 := emit { st with next_register := r + 1 } .OP_LOAD_CONST_STR r
           (ast_string_pointer sv) 0
         (r, s2)
       | .TOKEN_BOOL_TRUE =>
         let r := st.next_register
         let s2 := emit { st with next_register := r + 1 } .OP_LOAD_CONST r 1 0
         (r, s2)
       | .TOKEN_BOOL_FALSE =>
         let r := st.next_register
         let s2 := emit { st with next_register := r + 1 } .OP_LOAD_CONST r 0 0
         (r, s2)
       | _ => (-1, st))
    | .exprBinary op l r =>
      let lr := compile_expression l st
      let rr := compile_expression r lr.2
      let dest := rr.2.next_register
      let s0 := { rr.2 with next_register := dest + 1 }
      (match op with
       | .TOKEN_PLUS => (dest, emit s0 .OP_ADD dest lr.1 rr.1)
       | .TOKEN_MINUS => (dest, emit s0 .OP_SUB dest lr.1 rr.1)
       | .TOKEN_STAR => (dest, emit s0 .OP_MUL dest lr.1 rr.1)
       | .TOKEN_SLASH => (dest, emit s0 .OP_DIV dest lr.1 rr.1)
       | .TOKEN_EQ => (dest, emit s0 .OP_EQ dest lr.1 rr.1)
       | .TOKEN_NEQ => (dest, emit s0 .OP_NEQ dest lr.1 rr.1)
       | _ => (dest, s0))
    | .exprUnary op e =>
      let orr := compile_expression e st
      let dest := orr.2.next_register
      let s0 := { orr.2 with next_register := dest + 1 }
      (match op with
       | .TOKEN_MINUS =>
         let s1 := emit s0 .OP_LOAD_CONST dest 0 0
         (dest, emit s1 .OP_SUB dest dest orr.1)
       | .TOKEN_PLUS => (orr.1, s0)
       | _ => (orr.1, s0))
    | .exprIdentifier id =>
      let sym := match st.current_scope with
        | some sc => scope_lookup sc id
        | none => none
      (match sym with
       | some s => (s.reg, st)
       | none =>
         let func_addr := lookup_function_address st id
         if func_addr < 0 then
           (st.next_register, { st with next_register := st.next_register + 1 })
         else (func_addr, st))
    | .exprCall callee args =>
      (match callee with
       | some (.mk (.exprIdentifier func_name) _ _) =>
         let func_addr := lookup_function_address st func_name
         if func_addr < 0 then
           let s1 := compile_args_discard args st
           let base_reg := s1.next_register - (args.length : Int)
           let dest := s1.next_register
           let s2 := { s1 with next_register := dest + 1 }
           let r := bytecode_add_constant_str s2.bc func_name
           let s3 := { s2 with bc := r.2 }
           (dest, emit_ex s3 .OP_CALL_NATIVE dest r.1 (args.length : Int) base_reg)
         else
           let r := compile_args_collect args st
           let s1 := emit_arg_moves r.2 r.1
           let s2 := emit s1 .OP_CALL func_addr 0 0
           let ret_reg := s2.next_register
           (ret_reg, { s2 with next_register := ret_reg + 1 })
       | _ => (-1, st))
    | .exprInterpolation e =>
      let ir := compile_expression e st
      let s1 := emit ir.2 .OP_CALL (lookup_function_address ir.2 "str") 0 0
      let ret_reg := s1.next_register
      (ret_reg, { s1 with next_register := ret_reg + 1 })
    | _ => (-1, st)

/-- Argument loop of the native-call branch of `compile_expression`
(the result registers are discarded). -/
def compile_args_discard : List AstNode → CState → CState
  | [], st => st
  | a :: rest, st => compile_args_discard rest (compile_expression_one a st).2

/-- Argument loop of the bytecode-call branch of `compile_expression`
(collects `arg_regs[i]`). -/
def compile_args_collect : List AstNode → CState → List Int × CState
  | [], st => ([], st)
  | a :: rest, st =>
    let r := compile_expression_one a st
    let rr := compile_args_collect rest r.2
    (r.1 :: rr.1, rr.2)
end

/-- Compiler entry point, `compiler.c:compiler_compile_ast`: resets the
register counter and function table, pre-registers the native `print`
with sentinel address `-1`, compiles the tree and appends the trailing
`OP_HALT`.  (The static `current_scope` is null at the start of a fresh
process, modelled as `none`.) -/
def compiler_compile_ast (root : Option AstNode) : CState :=
  let st : CState :=
    { next_register := 0
      current_scope := none
      function_table := []
      bc := bytecode_create
      aborted := false }
  let st := add_function_entry st "print" (-1)
  let st := compile_node root st
  emit st .OP_HALT 0 0 0

/-! ## Virtual machine (src/vm/vm.c, src/vm/frame.c) -/

/-- Payload of a `char*` stored in a `VAL_STRING` value: `bytes` when
the pointer refers to an actual NUL-terminated heap string, `raw` when
it is merely an integer cast into pointer shape, as in the
`OP_LOAD_CONST_STR` handler (`(char*)(intptr_t)inst.operand2`).  A raw
cast of a small instruction operand is never the address of a heap
string in the C runtime, so the two cases are disjoint. -/
inductive StrPtr where
  | bytes (s : String)
  | raw (addr : Int)
deriving DecidableEq, Repr

/-- Tag-plus-union of `include/value.h:Value` (minus the refcount).
`vfloat` carries the abstracted double (as literal text; the VM only
ever stores the placeholder `0.0`); `vlist`/`vfile` payloads are never
created by the modelled code. -/
inductive VPayload where
  | vnull
  | vint (n : Int)
  | vfloat (text : String)
  | vbool (b : Bool)
  | vstr (p : StrPtr)
  | vlist
  | vfile
  | vobj (handle : Nat)
deriving DecidableEq, Repr

/-- Runtime value with refcount, `include/value.h:Value`. -/
structure VMValue where
  payload : VPayload
  refcount : Int
deriving DecidableEq, Repr

/-- The `VAL_NULL` value with refcount 0 the VM manufactures in
`vm_init_registers`, `vm_call_native` and `vm_get_register_value`. -/
def nullValue : VMValue := { payload := .vnull, refcount := 0 }

instance : Inhabited VMValue := ⟨nullValue⟩

/-- Local-variable value of `src/vm/frame.h` (a distinct, smaller Value
type; the VM never reads or writes frame locals). -/
inductive FrameValue where
  | VAL_INT_F (n : Int)
  | VAL_FLOAT_F (text : String)
  | VAL_BOOL_F (b : Bool)
  | VAL_NONE_F
deriving DecidableEq, Repr

/-- Call frame with locals and parent link, `src/vm/frame.h`. -/
inductive FrameRec where
  | mk (locals : List FrameValue) (parent : Option FrameRec)

/-- Constructor `frame.c:frame_create` (locals initialized to
`VAL_NONE`). -/
def frame_create (local_count : Nat) (parent : Option FrameRec) : FrameRec :=
  .mk (List.replicate local_count .VAL_NONE_F) parent

/-- Object with refcount and parallel key/value property arrays,
`vm.h:VMObject`. -/
structure VMObject where
  refcount : Int
  keys : List String
  values : List VMValue
deriving Repr

/-- Coroutine slot, `vm.h:Coro`. -/
structure Coro where
  active : Bool
  pc : Nat
  frame : Option FrameRec
  registers : List VMValue

instance : Inhabited Coro :=
  ⟨{ active := false, pc := 0, frame := none, registers := List.replicate 16 nullValue }⟩

/-- Native function shape `(argc, argv) → Value`,
`vm.h:native_registry`. -/
def NativeFn : Type := Int → List VMValue → VMValue

/-- The whole VM state, `vm.h:VM`.  The parallel `call_stack` /
`return_addresses` arrays plus `call_stack_top` are modelled as one
list of pairs whose head is the top of the stack; the object pool uses
stable numeric handles in place of heap pointers. -/
structure VM where
  bytecode : Bytecode
  pc : Nat
  registers : List VMValue
  running : Bool
  call_stack : List (FrameRec × Nat)
  objects : List (Nat × VMObject)
  next_object_id : Nat
  coroutines : List Coro
  current_coro : Nat
  native_registry : List (String × NativeFn)

/-- Constructor `vm.c:vm_create` (registers to Null, empty call stack
and object pool, all 64 coroutine slots inactive, empty registry).
For inactive slots the C leaves pc/frame/registers as uninitialized
memory; the model uses zero defaults, and `vm_create_coroutine`
initializes a slot before it is ever used. -/
def vm_create (bc : Bytecode) : VM :=
  { bytecode := bc
    pc := 0
    registers := List.replicate 16 nullValue
    running := true
    call_stack := []
    objects := []
    next_object_id := 0
    coroutines := List.replicate 64 default
    current_coro := 0
    native_registry := [] }

/-- Register read `vm->registers[i]`; only used after the C's own
`0 <= i < 16` checks (out-of-range access is undefined behavior in C;
the model's default is never observable on checked paths). -/
def getReg (vm : VM) (i : Int) : VMValue :=
  vm.registers.getD i.toNat nullValue

/-- Register write `vm->registers[i] = v` (same proviso as `getReg`). -/
def setReg (vm : VM) (i : Int) (v : VMValue) : VM :=
  { vm with registers := vm.registers.set i.toNat v }

/-- The `(size_t)x` cast applied to `int` operands (jump targets, call
addresses, coroutine indices): a negative `int` wraps to a huge
unsigned value. -/
def toCSizeT (v : Int) : Nat :=
  (v % 2 ^ 64).toNat

/-- `vm.c:vm_push_frame` (capacity 1024; on overflow the VM halts and
the frame is not stored). -/
def vm_push_frame (vm : VM) (f : FrameRec) (return_address : Nat) : VM :=
  if 1024 ≤ vm.call_stack.length then { vm with running := false }
  else { vm with call_stack := (f, return_address) :: vm.call_stack }

/-- `vm.c:vm_pop_frame` (on underflow the VM halts; otherwise the top
frame is destroyed and `pc` is set to its return address). -/
def vm_pop_frame (vm : VM) : VM :=
  match vm.call_stack with
  | [] => { vm with running := false }
  | (_, ra) :: rest => { vm with call_stack := rest, pc := ra }

/-- `vm.c:vm_call_native`: linear first-match scan of the registry; an
unregistered name silently yields the Null value. -/
def vm_call_native (vm : VM) (name : String) (arg_count : Int) (args : List VMValue) :
    VMValue :=
  match vm.native_registry.find? (fun p => p.1 == name) with
  | some p => p.2 arg_count args
  | none => nullValue

/-- In-place update of the first matching registry entry
(`vm.c:vm_register_native`, re-registration branch). -/
def replace_native : List (String × NativeFn) → String → NativeFn →
    List (String × NativeFn)
  | [], _, _ => []
  | p :: rest, name, f =>
    if p.1 == name then (p.1, f) :: rest else p :: replace_native rest name f

/-- `vm.c:vm_register_native` (null-pointer guards are vacuous in the
model; the registry-full check precedes the duplicate scan, as in the
C). -/
def vm_register_native (vm : VM) (name : String) (f : NativeFn) : Bool × VM :=
  if 64 ≤ vm.native_registry.length then (false, vm)
  else if vm.native_registry.any (fun p => p.1 == name) then
    (true, { vm with native_registry := replace_native vm.native_registry name f })
  else
    (true, { vm with native_registry := vm.native_registry ++ [(name, f)] })

/-- `vm.c:vm_create_object`: allocates a fresh object with refcount 1
and appends it to the pool; heap pointers become stable numeric
handles. -/
def vm_create_object (vm : VM) : Nat × VM :=
  let id := vm.next_object_id
  (id, { vm with
           objects := vm.objects ++ [(id, { refcount := 1, keys := [], values := [] })]
           next_object_id := id + 1 })

/-- `vm.c:vm_set_property` on one object: replace the first matching
key or append a new one. -/
def obj_set_property (o : VMObject) (key : String) (v : VMValue) : VMObject :=
  match o.keys.findIdx? (fun k => k == key) with
  | some i => { o with values := o.values.set i v }
  | none => { o with keys := o.keys ++ [key], values := o.values ++ [v] }

/-- `vm.c:vm_set_property` lifted to the pool (by handle). -/
def vm_set_property (vm : VM) (h : Nat) (key : String) (v : VMValue) : VM :=
  { vm with objects :=
      vm.objects.map (fun p => if p.1 == h then (p.1, obj_set_property p.2 key v) else p) }

/-- `vm.c:vm_get_property`: first matching key or the Null value. -/
def vm_get_property (vm : VM) (h : Nat) (key : String) : VMValue :=
  match vm.objects.find? (fun p => p.1 == h) with
  | some p =>
    match p.2.keys.findIdx? (fun k => k == key) with
    | some i => p.2.values.getD i nullValue
    | none => nullValue
  | none => nullValue

/-- `vm.c:vm_create_coroutine`: first inactive slot is initialized
(active, pc 0, no frame, Null registers) and its index returned;
0 when every slot is active. -/
def vm_create_coroutine (vm : VM) : Nat × VM :=
  match vm.coroutines.findIdx? (fun c => !c.active) with
  | some i =>
    let slot : Coro :=
      { active := true, pc := 0, frame := none, registers := List.replicate 16 nullValue }
    (i, { vm with coroutines := vm.coroutines.set i slot })
  | none => (0, vm)

/-- Round-robin scan of `vm_coroutine_yield`
(`idx = (c + 1 + i) % MAX_COROUTINES` for `i = 0..63`). -/
def scan_active : Nat → List Coro → Nat → Nat → Nat
  | 0, _, _, fallback => fallback
  | Nat.succ fuel, coroutines, idx, fallback =>
    if (coroutines.getD (idx % 64) default).active then idx % 64
    else scan_active fuel coroutines (idx + 1) fallback

/-- `vm.c:vm_coroutine_yield`: saves the current pc into the active
slot, picks the next active slot round-robin and restores its pc.
Registers are not touched. -/
def vm_coroutine_yield (vm : VM) : VM :=
  let c := vm.current_coro
  let cur := vm.coroutines.getD c default
  if !cur.active then vm
  else
    let coroutines := vm.coroutines.set c { cur with pc := vm.pc }
    let next := scan_active 64 coroutines (c + 1) ((c + 1) % 64)
    { vm with coroutines, current_coro := next,
              pc := (coroutines.getD next default).pc }

/-- `vm.c:vm_coroutine_resume`: guards the index, yields, re-saves the
pc of the slot the yield switched to, then switches directly to the
requested slot. -/
def vm_coroutine_resume (vm : VM) (coro_index : Nat) : VM :=
  if 64 ≤ coro_index || !(vm.coroutines.getD coro_index default).active then vm
  else
    let v2 := vm_coroutine_yield vm
    let slot := v2.coroutines.getD v2.current_coro default
    let v3 := { v2 with coroutines := v2.coroutines.set v2.current_coro { slot with pc := v2.pc } }
    { v3 with current_coro := coro_index,
              pc := (v3.coroutines.getD coro_index default).pc }

/-- Argument-copy loop of the `OP_CALL_NATIVE` handler: returns `none`
when some `base_reg + i >= 16` (the VM then halts).  A negative
`base_reg` passes the C's check and reads out of bounds (undefined
behavior); theorems about this path assume `0 <= base_reg`. -/
def copy_native_args (vm : VM) : Nat → Int → List VMValue → Option (List VMValue)
  | 0, _, acc => some acc.reverse
  | Nat.succ k, idx, acc =>
    if 16 ≤ idx then none
    else copy_native_args vm k (idx + 1) (getReg vm idx :: acc)

/-- One step of the dispatch switch, `vm.c:vm_execute_instruction`.
Note some quirks kept faithfully: `OP_ADD` still advances `pc` after a
type mismatch (the C falls through to `vm->pc++`), while
`OP_SUB`/`OP_MUL`/`OP_DIV`/`OP_EQ`/`OP_NEQ` return early;
`OP_LOAD_CONST_STR` stores the raw operand as the string pointer and
never consults the constant pool; `OP_CALL` sets `pc` even when the
frame push overflowed; `OP_GETPROP` increments the refcount of a local
copy after storing it, which has no observable effect. -/
def vm_execute_instruction (vm : VM) (inst : Instr) : VM :=
  match inst.opcode with
  | .OP_NOP => { vm with pc := vm.pc + 1 }
  | .OP_LOAD_CONST =>
    let r := inst.operand1
    if r < 0 || 16 ≤ r then { vm with running := false }
    else
      let v2 := setReg vm r { payload := .vint inst.operand2, refcount := 0 }
      { v2 with pc := v2.pc + 1 }
  | .OP_LOAD_CONST_FLOAT =>
    let r := inst.operand1
    if r < 0 || 16 ≤ r then { vm with running := false }
    else
      let v2 := setReg vm r { payload := .vfloat "0.0", refcount := 0 }
      { v2 with pc := v2.pc + 1 }
  | .OP_LOAD_CONST_STR =>
    let r := inst.operand1
    if r < 0 || 16 ≤ r then { vm with running := false }
    else
      let v2 := setReg vm r { payload := .vstr (.raw inst.operand2), refcount := 0 }
      { v2 with pc := v2.pc + 1 }
  | .OP_ADD =>
    let rd := inst.operand1
    let rs1 := inst.operand2
    let rs2 := inst.operand3
    if rd < 0 || 16 ≤ rd || rs1 < 0 || 16 ≤ rs1 || rs2 < 0 || 16 ≤ rs2 then
      { vm with running := false }
    else
      match (getReg vm rs1).payload, (getReg vm rs2).payload with
      | .vint a, .vint b =>
        let v2 := setReg vm rd { payload := .vint (a + b), refcount := 0 }
        { v2 with pc := v2.pc + 1 }
      | _, _ =>
        { vm with running := false, pc := vm.pc + 1 }
  | .OP_SUB =>
    let rd := inst.operand1
    let rs1 := inst.operand2
    let rs2 := inst.operand3
    if rd < 0 || 16 ≤ rd || rs1 < 0 || 16 ≤ rs1 || rs2 < 0 || 16 ≤ rs2 then
      { vm with running := false }
    else
      match (getReg vm rs1).payload, (getReg vm rs2).payload with
      | .vint a, .vint b =>
        let v2 := setReg vm rd { payload := .vint (a - b), refcount := 0 }
        { v2 with pc := v2.pc + 1 }
      | _, _ => { vm with running := false }
  | .OP_MUL =>
    let rd := inst.operand1
    let rs1 := inst.operand2
    let rs2 := inst.operand3
    if rd < 0 || 16 ≤ rd || rs1 < 0 || 16 ≤ rs1 || rs2 < 0 || 16 ≤ rs2 then
      { vm with running := false }
    else
      match (getReg vm rs1).payload, (getReg vm rs2).payload with
      | .vint a, .vint b =>
        let v2 := setReg vm rd { payload := .vint (a * b), refcount := 0 }
        { v2 with pc := v2.pc + 1 }
      | _, _ => { vm with running := false }
  | .OP_DIV =>
    let rd := inst.operand1
    let rs1 := inst.operand2
    let rs2 := inst.operand3
    if rd < 0 || 16 ≤ rd || rs1 < 0 || 16 ≤ rs1 || rs2 < 0 || 16 ≤ rs2 then
      { vm with running := false }
    else
      match (getReg vm rs1).payload, (getReg vm rs2).payload with
      | .vint a, .vint b =>
        if b == 0 then { vm with running := false }
        else
          let v2 := setReg vm rd { payload := .vint (Int.tdiv a b), refcount := 0 }
          { v2 with pc := v2.pc + 1 }
      | _, _ => { vm with running := false }
  | .OP_EQ =>
    let dest := inst.operand1
    let rs1 := inst.operand2
    let rs2 := inst.operand3
    if dest < 0 || 16 ≤ dest || rs1 < 0 || 16 ≤ rs1 || rs2 < 0 || 16 ≤ rs2 then
      { vm with running := false }
    else
      match (getReg vm rs1).payload, (getReg vm rs2).payload with
      | .vint a, .vint b =>
        let v2 := setReg vm dest { payload := .vint (if a == b then 1 else 0), refcount := 0 }
        { v2 with pc := v2.pc + 1 }
      | _, _ => { vm with running := false }
  | .OP_NEQ =>
    let dest := inst.operand1
    let rs1 := inst.operand2
    let rs2 := inst.operand3
    if dest < 0 || 16 ≤ dest || rs1 < 0 || 16 ≤ rs1 || rs2 < 0 || 16 ≤ rs2 then
      { vm with running := false }
    else
      match (getReg vm rs1).payload, (getReg vm rs2).payload with
      | .vint a, .vint b =>
        let v2 := setReg vm dest { payload := .vint (if a != b then 1 else 0), refcount := 0 }
        { v2 with pc := v2.pc + 1 }
      | _, _ => { vm with running := false }
  | .OP_MOVE =>
    let dest := inst.operand1
    let src := inst.operand2
    if dest < 0 || 16 ≤ dest || src < 0 || 16 ≤ src then { vm with running := false }
    else
      let v2 := setReg vm dest (getReg vm src)
      { v2 with pc := v2.pc + 1 }
  | .OP_JUMP => { vm with pc := toCSizeT inst.operand1 }
  | .OP_JUMP_IF_ZERO =>
    let r := inst.operand2
    if r < 0 || 16 ≤ r then { vm with running := false }
    else
      match (getReg vm r).payload with
      | .vint a =>
        if a == 0 then { vm with pc := toCSizeT inst.operand1 }
        else { vm with pc := vm.pc + 1 }
      | _ => { vm with running := false }
  | .OP_CALL =>
    let func_addr := toCSizeT inst.operand1
    if vm.bytecode.instructions.length ≤ func_addr then { vm with running := false }
    else
      let parent := match vm.call_stack with
        | (f, _) :: _ => some f
        | [] => none
      let f := frame_create 8 parent
      let v2 := vm_push_frame vm f (vm.pc + 1)
      { v2 with pc := func_addr }
  | .OP_CALL_NATIVE =>
    let dest := inst.operand1
    let cp_index := inst.operand2
    if cp_index < 0 || (vm.bytecode.constant_pool.length : Int) ≤ cp_index then
      { vm with running := false }
    else
      let native_name := vm.bytecode.constant_pool.getD cp_index.toNat ""
      let arg_count := inst.operand3
      let base_reg := inst.operand4
      match copy_native_args vm arg_count.toNat base_reg [] with
      | none => { vm with running := false }
      | some args =>
        let result := vm_call_native vm native_name arg_count args
        if 0 ≤ dest && dest < 16 then
          let v2 := setReg vm dest result
          { v2 with pc := v2.pc + 1 }
        else { vm with running := false }
  | .OP_RET =>
    if vm.call_stack.length == 0 then { vm with running := false }
    else vm_pop_frame vm
  | .OP_HALT => { vm with running := false }
  | .OP_NEWOBJ =>
    let rd := inst.operand1
    if rd < 0 || 16 ≤ rd then { vm with running := false }
    else
      let r := vm_create_object vm
      let v2 := setReg r.2 rd { payload := .vobj r.1, refcount := 1 }
      { v2 with pc := v2.pc + 1 }
  | .OP_SETPROP =>
    let ro := inst.operand1
    let rk := inst.operand2
    let rv := inst.operand3
    if ro < 0 || 16 ≤ ro || rk < 0 || 16 ≤ rk || rv < 0 || 16 ≤ rv then
      { vm with running := false }
    else
      match (getReg vm ro).payload with
      | .vobj h =>
        (match (getReg vm rk).payload with
         | .vint k =>
           let v2 := vm_set_property vm h (toString k) (getReg vm rv)
           { v2 with pc := v2.pc + 1 }
         | _ => { vm with running := false })
      | _ => { vm with running := false }
  | .OP_GETPROP =>
    let rd := inst.operand1
    let ro := inst.operand2
    let rk := inst.operand3
    if rd < 0 || 16 ≤ rd || ro < 0 || 16 ≤ ro || rk < 0 || 16 ≤ rk then
      { vm with running := false }
    else
      match (getReg vm ro).payload with
      | .vobj h =>
        (match (getReg vm rk).payload with
         | .vint k =>
           let val := vm_get_property vm h (toString k)
           let v2 := setReg vm rd val
           { v2 with pc := v2.pc + 1 }
         | _ => { vm with running := false })
      | _ => { vm with running := false }
  | .OP_CORO_INIT =>
    let idx := toCSizeT inst.operand1
    if 64 ≤ idx then { vm with running := false }
    else
      let r := vm_create_coroutine vm
      { r.2 with pc := r.2.pc + 1 }
  | .OP_CORO_YIELD =>
    let v2 := vm_coroutine_yield vm
    { v2 with pc := v2.pc + 1 }
  | .OP_CORO_RESUME =>
    let v2 := vm_coroutine_resume vm (toCSizeT inst.operand1)
    { v2 with pc := v2.pc + 1 }

/-- Fueled dispatch loop, `vm.c:vm_run`
(`while (running && pc < instruction_count) execute(...)`).  The C loop
need not terminate; the claims below run it with concrete fuel and show
the result is a fixed point. -/
def vm_run_go : Nat → VM → VM
  | 0, vm => vm
  | Nat.succ fuel, vm =>
    if vm.running && vm.pc < vm.bytecode.instructions.length then
      vm_run_go fuel
        (vm_execute_instruction vm (vm.bytecode.instructions.getD vm.pc default))
    else vm

/-- `vm.c:vm_get_register_value`: total accessor returning Null for a
null VM pointer (modelled by `none`) or an out-of-range index. -/
def vm_get_register_value (vm : Option VM) (reg_index : Int) : VMValue :=
  match vm with
  | none => nullValue
  | some v =>
    if reg_index < 0 || 16 ≤ reg_index then nullValue
    else v.registers.getD reg_index.toNat nullValue

/-! ## Pipeline orchestration (src/osfl/osfl.c:osfl_run_file) -/

/-- Names registered by `osfl_run_file` before `vm_run` (their bodies
live in the out-of-scope runtime library; the pipeline below is
parameterized by the implementations). -/
def osfl_native_names : List String :=
  ["print", "split", "join", "substring", "replace", "to_upper", "to_lower",
   "len", "append", "pop", "insert", "remove", "sqrt", "pow", "sin", "cos",
   "tan", "log", "abs", "int", "float", "str", "bool", "open", "read",
   "write", "close", "exit", "time", "type", "range", "enumerate"]

/-- The native-registration block of `osfl_run_file`. -/
def register_osfl_natives (vm : VM) (impls : String → NativeFn) : VM :=
  osfl_native_names.foldl (fun v n => (vm_register_native v n (impls n)).2) vm

/-- Outcome of one pipeline run (the stages at which `osfl_run_file`
can stop early, file I/O aside). -/
inductive PipelineResult where
  | lexError (e : LexerError)
  | semanticError (n : Nat)
  | finished (vm : VM)

/-- Steps 2-6 of `osfl.c:osfl_run_file`: collect tokens, abort on a
recorded lexer error, parse, run the semantic pass (abort when it
counted errors), compile, create the VM, register the natives and run.
`impls` supplies the native bodies, `fuel` bounds the VM loop. -/
def osfl_run_pipeline (source : List Char) (file_name : String)
    (impls : String → NativeFn) (fuel : Nat) : PipelineResult :=
  let cfg := { lexer_default_config with file_name := file_name }
  let r := collect_tokens (lexer_create source cfg)
  if r.2.error.type != LexerErrorType.LEXER_ERROR_NONE then .lexError r.2.error
  else
    let tokens := r.1
    let pr := parser_parse (parser_create tokens tokens.length)
    let sem := semantic_analyze pr.1 semantic_init
    if 0 < sem.error_count then .semanticError sem.error_count
    else
      let cst := compiler_compile_ast pr.1
      let vm := vm_create cst.bc
      let vm := register_osfl_natives vm impls
      .finished (vm_run_go fuel vm)

/-! ## Concrete fixtures for the claims -/

/-- Scenario 1 source (spec §8), braces escaped:
`frame Main { func main() { var a = 10; var b = 20; return a + b; } }`. -/
def srcC1 : String :=
  "frame Main \x7b func main() \x7b var a = 10; var b = 20; return a + b; \x7d \x7d"

/-- Scenario 5 source (spec §8): the string literal `"val=${1+2}"`. -/
def srcC4 : List Char :=
  [quoteChar, 'v', 'a', 'l', '=', dollarChar, lbraceChar, '1', '+', '2', rbraceChar,
   quoteChar]

/-- The token list the pipeline collects from `srcC4`. -/
def c4_tokens : List Token :=
  (collect_tokens (lexer_create srcC4 lexer_default_config)).1

/-- An `AST_EXPR_INTERPOLATION` node wrapping the literal `1`, used as a
statement: the parsed shape of an interpolation expression. -/
def c4_interp_ast : AstNode :=
  .mk (.exprStmt (some (.mk (.exprInterpolation
    (some (.mk (.exprLiteral .TOKEN_INTEGER (.ival 1)) zeroLoc none))) zeroLoc none)))
    zeroLoc none

/-- String literal of exactly 63 usable characters. -/
def src63 : List Char := quoteChar :: (List.replicate 63 'a' ++ [quoteChar])

/-- String literal of 64 usable characters. -/
def src64 : List Char := quoteChar :: (List.replicate 64 'a' ++ [quoteChar])

/-- A newline token as the parser receives it. -/
def nlToken : Token :=
  { type := .TOKEN_NEWLINE, value := .zero, location := { line := 1, column := 1, file := "" },
    text := "" }

/-- Bytecode exercising `OP_LOAD_CONST_STR 0, 0` next to a one-entry
constant pool. -/
def c2_bc : Bytecode :=
  { instructions :=
      [{ opcode := .OP_LOAD_CONST_STR, operand1 := 0, operand2 := 0, operand3 := 0,
         operand4 := 0 }]
    constant_pool := ["hello"] }

/-- Bytecode exercising `OP_CALL_NATIVE` with the pool name `"foo"`,
which is never registered. -/
def c3_bc : Bytecode :=
  { instructions :=
      [{ opcode := .OP_CALL_NATIVE, operand1 := 0, operand2 := 0, operand3 := 0,
         operand4 := 0 }]
    constant_pool := ["foo"] }

/-- A VM with two active coroutine slots whose stored register
snapshots (`Int 7` and `Int 9` in register 0) differ from the live
register file (`Int 5` in register 0): yielding from slot 0 would have
to swap in slot 1's snapshot if the spec held. -/
def c9_vm : VM :=
  { bytecode := bytecode_create
    pc := 2
    registers := { payload := .vint 5, refcount := 0 } :: List.replicate 15 nullValue
    running := true
    call_stack := []
    objects := []
    next_object_id := 0
    coroutines :=
      { active := true, pc := 0, frame := none,
        registers := { payload := .vint 7, refcount := 0 } :: List.replicate 15 nullValue } ::
      { active := true, pc := 5, frame := none,
        registers := { payload := .vint 9, refcount := 0 } :: List.replicate 15 nullValue } ::
      List.replicate 62 default
    current_coro := 0
    native_registry := [] }

/-- An `AST_NODE_IF` over literals, used to instantiate the jump-target
invariant at a concrete input. -/
def c8_ast : AstNode :=
  .mk (.ifNode
        (some (.mk (.exprLiteral .TOKEN_INTEGER (.ival 1)) zeroLoc none))
        (some (.mk (.exprStmt (some (.mk (.exprLiteral .TOKEN_INTEGER (.ival 2))
          zeroLoc none))) zeroLoc none))
        none)
      zeroLoc none

/-- The jump-target invariant maintained during compilation: every
`JUMP` / `JUMP_IF_ZERO` already emitted has a nonnegative target not
exceeding the *current* instruction count (a target equal to the count
is a forward jump patched to the position right after the code emitted
so far). -/
def jt_bounded (bc : Bytecode) : Prop :=
  ∀ i ∈ bc.instructions,
    (i.opcode = VMOpcode.OP_JUMP ∨ i.opcode = VMOpcode.OP_JUMP_IF_ZERO) →
      0 ≤ i.operand1 ∧ i.operand1 ≤ (bc.instructions.length : Int)

/-- The bytecode the compiler produces for the Scenario-1 source
`srcC1` (established by the `decide` step inside the C1 theorem, not
assumed): `main`'s body sits at address 0, `a + b` reads the dummy
registers 2 and 3 that the unbound identifiers received, and the
`CALL main` of the Main frame comes *after* the body. -/
def c1_bc : Bytecode :=
  { instructions :=
      [{ opcode := .OP_LOAD_CONST, operand1 := 0, operand2 := 10, operand3 := 0,
         operand4 := 0 },
       { opcode := .OP_LOAD_CONST, operand1 := 1, operand2 := 20, operand3 := 0,
         operand4 := 0 },
       { opcode := .OP_ADD, operand1 := 4, operand2 := 2, operand3 := 3, operand4 := 0 },
       { opcode := .OP_RET, operand1 := 0, operand2 := 0, operand3 := 0, operand4 := 0 },
       { opcode := .OP_RET, operand1 := 0, operand2 := 0, operand3 := 0, operand4 := 0 },
       { opcode := .OP_CALL, operand1 := 0, operand2 := 0, operand3 := 0, operand4 := 0 },
       { opcode := .OP_HALT, operand1 := 0, operand2 := 0, operand3 := 0, operand4 := 0 },
       { opcode := .OP_HALT, operand1 := 0, operand2 := 0, operand3 := 0, operand4 := 0 }]
    constant_pool := [] }

/-- The VM state in which the Scenario-1 run stops (fuel 16 far exceeds
the three executed instructions). -/
def c1_final : VM := vm_run_go 16 (vm_create c1_bc)

/-- The register file the Scenario-1 run ends with: the two literals in
registers 0 and 1, everything else Null — in particular no register
holds Int 30. -/
def c1_expected_registers : List VMValue :=
  [{ payload := .vint 10, refcount := 0 }, { payload := .vint 20, refcount := 0 },
   nullValue, nullValue, nullValue, nullValue, nullValue, nullValue,
   nullValue, nullValue, nullValue, nullValue, nullValue, nullValue,
   nullValue, nullValue]

end Osfl

namespace Osfl

/-! ## Claim theorems -/

/-- C6: for every lexer state, `peek_token` returns a token equal to
the one the next `next_token` call returns, and it leaves the lexer
state (position, line, column, the cached current/peek characters and
the last-error record — in the model, the entire state) unchanged, so
repeated peeks yield equal tokens. -/
theorem C6_peek_token_transparent (l : Lexer) :
    (lexer_peek_token l).1 = (lexer_next_token l).1 ∧
    (lexer_peek_token l).2 = l ∧
    (lexer_peek_token (lexer_peek_token l).2).1 = (lexer_peek_token l).1 :=
  ⟨rfl, rfl, rfl⟩

/-- C10: `vm_get_register_value` is total: it returns Null for a null
VM pointer or an index outside `0..15`, and otherwise the current
register value; it performs no state change and never halts the VM. -/
theorem C10_get_register_value_total :
    (∀ i : Int, vm_get_register_value none i = nullValue) ∧
    (∀ (vm : VM) (i : Int), i < 0 ∨ 16 ≤ i →
      vm_get_register_value (some vm) i = nullValue) ∧
    (∀ (vm : VM) (i : Int), 0 ≤ i → i < 16 →
      vm_get_register_value (some vm) i = vm.registers.getD i.toNat nullValue) := by
  refine ⟨fun i => rfl, fun vm i h => ?_, fun vm i h1 h2 => ?_⟩
  · simp only [vm_get_register_value]
    rcases h with h | h <;> simp [h]
  · simp only [vm_get_register_value]
    rw [if_neg]
    simp only [decide_eq_true_eq, Bool.or_eq_true, not_or]
    omega

/-- Witness for C10 at concrete inputs. -/
theorem C10_get_register_value_total_witness :
    vm_get_register_value none 5 = nullValue ∧
    vm_get_register_value (some (vm_create bytecode_create)) 20 = nullValue ∧
    vm_get_register_value (some (vm_create bytecode_create)) 3 =
      (vm_create bytecode_create).registers.getD (3 : Int).toNat nullValue :=
  ⟨C10_get_register_value_total.1 5,
   C10_get_register_value_total.2.1 (vm_create bytecode_create) 20 (Or.inr (by norm_num)),
   C10_get_register_value_total.2.2 (vm_create bytecode_create) 3 (by norm_num) (by norm_num)⟩

/-- C7: a string literal of exactly 63 usable characters lexes into a
String token carrying all 63 characters with no error recorded; with
64 characters the lexer records a `LEXER_ERROR_BUFFER_OVERFLOW` in its
last-error record (the failure channel of spec §4.1/§7) while the
returned token is a String token truncated to 63 characters. -/
theorem C7_string_literal_boundary :
    ((lexer_next_token (lexer_create src63 lexer_default_config)).1.type =
       .TOKEN_STRING ∧
     (lexer_next_token (lexer_create src63 lexer_default_config)).1.value =
       .stringVal (String.mk (List.replicate 63 'a')) 63 ∧
     (lexer_next_token (lexer_create src63 lexer_default_config)).2.error.type =
       .LEXER_ERROR_NONE) ∧
    ((lexer_next_token (lexer_create src64 lexer_default_config)).2.error.type =
       .LEXER_ERROR_BUFFER_OVERFLOW ∧
     (lexer_next_token (lexer_create src64 lexer_default_config)).1.type =
       .TOKEN_STRING ∧
     (lexer_next_token (lexer_create src64 lexer_default_config)).1.value =
       .stringVal (String.mk (List.replicate 63 'a')) 63) := by
  decide

/-- C9 counterexample: from the concrete state `c9_vm`, a CORO_YIELD
switches to slot 1 but leaves the live register file unchanged instead
of swapping in slot 1's snapshot, and slot 0's stored snapshot is not
updated to the live values either — no swap takes place. -/
theorem C9_counterexample_no_swap :
    (vm_coroutine_yield c9_vm).current_coro = 1 ∧
    (vm_coroutine_yield c9_vm).registers = c9_vm.registers ∧
    (vm_coroutine_yield c9_vm).registers ≠
      (c9_vm.coroutines.getD 1 default).registers ∧
    ((vm_coroutine_yield c9_vm).coroutines.getD 0 default).registers ≠
      c9_vm.registers := by
  decide

/-- C5 counterexample: `parser_advance` returns the token at the
current index unfiltered; on a token array whose current token is a
Newline it hands that Newline token to its caller. -/
theorem C5_counterexample_advance_newline :
    (parser_advance (parser_create [nlToken] 1)).1.type = .TOKEN_NEWLINE := by
  decide

/-- C2 (amended): an in-range `LOAD_CONST_STR` stores the *raw operand*
`op2` as the string pointer of register `op1` (the C casts the integer
operand itself to `char*`); the constant pool is never consulted. -/
theorem C2_load_const_str_stores_raw_operand (vm : VM) (inst : Instr)
    (hop : inst.opcode = .OP_LOAD_CONST_STR)
    (h0 : 0 ≤ inst.operand1) (h1 : inst.operand1 < 16) :
    vm_execute_instruction vm inst =
      { setReg vm inst.operand1
          { payload := .vstr (.raw inst.operand2), refcount := 0 } with
        pc := vm.pc + 1 } := by
  have hcond : ¬ ((decide (inst.operand1 < 0) || decide (16 ≤ inst.operand1)) = true) := by
    simp only [Bool.or_eq_true, decide_eq_true_eq, not_or]
    omega
  simp only [vm_execute_instruction, hop]
  rw [if_neg hcond]
  rfl

/-- C2 witness: the step theorem applied at the `c2_bc` fixture. -/
theorem C2_load_const_str_stores_raw_operand_witness :
    vm_execute_instruction (vm_create c2_bc) (c2_bc.instructions.getD 0 default) =
      { setReg (vm_create c2_bc) (c2_bc.instructions.getD 0 default).operand1
          { payload := .vstr (.raw (c2_bc.instructions.getD 0 default).operand2),
            refcount := 0 } with
        pc := (vm_create c2_bc).pc + 1 } :=
  C2_load_const_str_stores_raw_operand (vm_create c2_bc)
    (c2_bc.instructions.getD 0 default) (by decide) (by decide) (by decide)

/-- C2 counterexample: with a pool whose entry 0 is `"hello"`,
executing `LOAD_CONST_STR 0, 0` leaves register 0 holding the raw
pointer value 0, not a string with the pool entry bytes. -/
theorem C2_counterexample_pool_ignored :
    ((vm_execute_instruction (vm_create c2_bc)
        (c2_bc.instructions.getD 0 default)).registers.getD 0 nullValue).payload =
      .vstr (.raw 0) ∧
    ((vm_execute_instruction (vm_create c2_bc)
        (c2_bc.instructions.getD 0 default)).registers.getD 0 nullValue).payload ≠
      .vstr (.bytes (c2_bc.constant_pool.getD 0 "")) := by
  decide

/-- Shared helper: the argument-copy loop of `OP_CALL_NATIVE` succeeds
whenever every copied index stays below 16. -/
theorem copy_native_args_some (vm : VM) :
    ∀ (k : Nat) (idx : Int) (acc : List VMValue), idx + (k : Int) ≤ 16 →
      ∃ args, copy_native_args vm k idx acc = some args
  | 0, _, acc, _ => ⟨acc.reverse, rfl⟩
  | Nat.succ k, idx, acc, h => by
    have hlt : ¬ (16 ≤ idx) := by push_cast at h; omega
    rw [copy_native_args, if_neg hlt]
    exact copy_native_args_some vm k (idx + 1) (getReg vm idx :: acc)
      (by push_cast at h ⊢; omega)

/-- C3 (amended): executing `CALL_NATIVE` with an in-range pool index,
in-range destination and argument window, and a pool name matching no
registry entry does *not* halt: the VM stores the Null value in the
destination register and continues at `pc + 1` with `running`
unchanged. -/
theorem C3_unknown_native_returns_null_and_continues (vm : VM) (inst : Instr)
    (hop : inst.opcode = .OP_CALL_NATIVE)
    (hcp0 : 0 ≤ inst.operand2)
    (hcp1 : inst.operand2 < (vm.bytecode.constant_pool.length : Int))
    (hname : ∀ p ∈ vm.native_registry,
        p.1 ≠ vm.bytecode.constant_pool.getD inst.operand2.toNat "")
    (hd0 : 0 ≤ inst.operand1) (hd1 : inst.operand1 < 16)
    (hargs : inst.operand4 + ((inst.operand3.toNat : Nat) : Int) ≤ 16) :
    vm_execute_instruction vm inst =
      { setReg vm inst.operand1 nullValue with pc := vm.pc + 1 } ∧
    (vm_execute_instruction vm inst).running = vm.running := by
  have hcond : ¬ ((decide (inst.operand2 < 0) ||
      decide ((vm.bytecode.constant_pool.length : Int) ≤ inst.operand2)) = true) := by
    simp only [Bool.or_eq_true, decide_eq_true_eq, not_or]
    omega
  have hdest : (decide (0 ≤ inst.operand1) && decide (inst.operand1 < 16)) = true := by
    simp only [Bool.and_eq_true, decide_eq_true_eq]
    exact ⟨hd0, hd1⟩
  obtain ⟨args, hcopy⟩ :=
    copy_native_args_some vm inst.operand3.toNat inst.operand4 [] hargs
  have hfind : vm.native_registry.find?
      (fun p => p.1 == vm.bytecode.constant_pool.getD inst.operand2.toNat "") = none := by
    apply List.find?_eq_none.mpr
    intro p hp
    simp only [beq_iff_eq]
    exact hname p hp
  have hmain : vm_execute_instruction vm inst =
      { setReg vm inst.operand1 nullValue with pc := vm.pc + 1 } := by
    simp only [vm_execute_instruction, hop]
    rw [if_neg hcond, hcopy]
    simp only [vm_call_native, hfind]
    rw [if_pos hdest]
    rfl
  refine ⟨hmain, ?_⟩
  rw [hmain]
  rfl

/-- C3 witness: the step theorem applied at the `c3_bc` fixture (empty
registry, pool name `"foo"`). -/
theorem C3_unknown_native_returns_null_and_continues_witness :
    (vm_execute_instruction (vm_create c3_bc) (c3_bc.instructions.getD 0 default) =
      { setReg (vm_create c3_bc) (c3_bc.instructions.getD 0 default).operand1
          nullValue with
        pc := (vm_create c3_bc).pc + 1 }) ∧
    (vm_execute_instruction (vm_create c3_bc)
        (c3_bc.instructions.getD 0 default)).running = (vm_create c3_bc).running :=
  C3_unknown_native_returns_null_and_continues (vm_create c3_bc)
    (c3_bc.instructions.getD 0 default) (by decide) (by decide) (by decide)
    (fun p hp => absurd hp (by simp [vm_create]))
    (by decide) (by decide) (by decide)

/-- C3 counterexample: after executing `CALL_NATIVE` naming the
unregistered `"foo"`, the VM is still running at `pc = 1` and register
0 holds Null — no halt occurred. -/
theorem C3_counterexample_no_halt :
    (vm_execute_instruction (vm_create c3_bc)
        (c3_bc.instructions.getD 0 default)).running = true ∧
    (vm_execute_instruction (vm_create c3_bc)
        (c3_bc.instructions.getD 0 default)).pc = 1 ∧
    getReg (vm_execute_instruction (vm_create c3_bc)
        (c3_bc.instructions.getD 0 default)) 0 = nullValue := by
  decide

/-- Updating one coroutine slot with a value that keeps its register
snapshot leaves every slot's snapshot unchanged (helper for C9). -/
theorem coro_registers_getD_set :
    ∀ (l : List Coro) (n : Nat) (v : Coro),
      v.registers = (l.getD n default).registers →
      ∀ i : Nat, ((l.set n v).getD i default).registers = (l.getD i default).registers
  | [], _, _, _, _ => rfl
  | _ :: _, 0, _, h, 0 => h
  | _ :: _, 0, _, _, Nat.succ _ => rfl
  | _ :: _, Nat.succ _, _, _, 0 => rfl
  | _ :: rest, Nat.succ n, v, h, Nat.succ i =>
    coro_registers_getD_set rest n v h i

/-- `vm_coroutine_yield` touches neither the live register file nor any
slot's stored snapshot (helper for C9). -/
theorem vm_coroutine_yield_registers (vm : VM) :
    (vm_coroutine_yield vm).registers = vm.registers ∧
    ∀ i : Nat, ((vm_coroutine_yield vm).coroutines.getD i default).registers =
      (vm.coroutines.getD i default).registers := by
  cases h : (vm.coroutines.getD vm.current_coro default).active
  · have he : vm_coroutine_yield vm = vm := by
      simp only [vm_coroutine_yield]
      rw [h]
      rfl
    rw [he]
    exact ⟨rfl, fun _ => rfl⟩
  · refine ⟨?_, fun i => ?_⟩
    · simp only [vm_coroutine_yield]
      rw [h]
      rfl
    · simp only [vm_coroutine_yield]
      rw [h]
      show ((vm.coroutines.set vm.current_coro _).getD i default).registers = _
      refine coro_registers_getD_set _ _ _ ?_ i
      rfl

/-- `vm_coroutine_resume` touches neither the live register file nor
any slot's stored snapshot (helper for C9). -/
theorem vm_coroutine_resume_registers (vm : VM) (idx : Nat) :
    (vm_coroutine_resume vm idx).registers = vm.registers ∧
    ∀ i : Nat, ((vm_coroutine_resume vm idx).coroutines.getD i default).registers =
      (vm.coroutines.getD i default).registers := by
  obtain ⟨hy1, hy2⟩ := vm_coroutine_yield_registers vm
  by_cases h : (decide (64 ≤ idx) || !(vm.coroutines.getD idx default).active) = true
  · have he : vm_coroutine_resume vm idx = vm := by
      simp only [vm_coroutine_resume]
      rw [if_pos h]
    rw [he]
    exact ⟨rfl, fun _ => rfl⟩
  · have h2 : ∀ i : Nat,
        (((vm_coroutine_yield vm).coroutines.set (vm_coroutine_yield vm).current_coro
            { (vm_coroutine_yield vm).coroutines.getD (vm_coroutine_yield vm).current_coro
                default with
              pc := (vm_coroutine_yield vm).pc }).getD i default).registers =
          (vm.coroutines.getD i default).registers := by
      intro i
      refine Eq.trans (coro_registers_getD_set _ _ _ ?_ i) (hy2 i)
      rfl
    refine ⟨?_, fun i => ?_⟩
    · simp only [vm_coroutine_resume]
      rw [if_neg h]
      exact hy1
    · simp only [vm_coroutine_resume]
      rw [if_neg h]
      exact h2 i

/-- C9 (amended): `CORO_YIELD` and `CORO_RESUME` transfer only the
program counter; for every VM state and resume index, the live
16-register file and every slot's stored register snapshot are exactly
what they were before — nothing is swapped. -/
theorem C9_yield_resume_transfer_pc_only (vm : VM) (idx : Nat) :
    (vm_coroutine_yield vm).registers = vm.registers ∧
    (∀ i : Nat, ((vm_coroutine_yield vm).coroutines.getD i default).registers =
      (vm.coroutines.getD i default).registers) ∧
    (vm_coroutine_resume vm idx).registers = vm.registers ∧
    (∀ i : Nat, ((vm_coroutine_resume vm idx).coroutines.getD i default).registers =
      (vm.coroutines.getD i default).registers) :=
  ⟨(vm_coroutine_yield_registers vm).1, (vm_coroutine_yield_registers vm).2,
   (vm_coroutine_resume_registers vm idx).1, (vm_coroutine_resume_registers vm idx).2⟩

/-- The parser-side whitespace-skipping loop preserves the token array
and count, and when it stops in range the current token is neither a
Newline nor a Whitespace token (helper for C5). -/
theorem parser_skip_ws_go_spec :
    ∀ (fuel : Nat) (p : Parser), p.token_count - p.current < fuel →
      (parser_skip_ws_go fuel p).tokens = p.tokens ∧
      (parser_skip_ws_go fuel p).token_count = p.token_count ∧
      ((parser_skip_ws_go fuel p).current < (parser_skip_ws_go fuel p).token_count →
        ((parser_skip_ws_go fuel p).tokens.getD (parser_skip_ws_go fuel p).current
            zeroToken).type ≠ .TOKEN_NEWLINE ∧
        ((parser_skip_ws_go fuel p).tokens.getD (parser_skip_ws_go fuel p).current
            zeroToken).type ≠ .TOKEN_WHITESPACE)
  | 0, _, h => absurd h (Nat.not_lt_zero _)
  | Nat.succ fuel, p, h => by
    simp only [parser_skip_ws_go]
    by_cases hc : p.current < p.token_count
    · rw [if_pos hc]
      by_cases ht : ((p.tokens.getD p.current zeroToken).type !=
          TokenType.TOKEN_NEWLINE &&
          (p.tokens.getD p.current zeroToken).type != TokenType.TOKEN_WHITESPACE) = true
      · rw [if_pos ht]
        refine ⟨rfl, rfl, fun _ => ?_⟩
        simp only [Bool.and_eq_true, bne_iff_ne, ne_eq] at ht
        exact ⟨ht.1, ht.2⟩
      · rw [if_neg ht]
        exact parser_skip_ws_go_spec fuel { p with current := p.current + 1 }
          (by show p.token_count - (p.current + 1) < fuel; omega)
    · rw [if_neg hc]
      exact ⟨rfl, rfl, fun hlt => absurd hlt hc⟩

/-- C5 (amended): `parser_peek` skips Newline and Whitespace tokens and
never returns one to its caller, but `parser_advance` performs no
skipping at all: in range it returns the token at the current index
unfiltered, whatever its type. -/
theorem C5_peek_skips_advance_does_not (p : Parser) :
    ((parser_peek p).1.type ≠ .TOKEN_NEWLINE ∧
     (parser_peek p).1.type ≠ .TOKEN_WHITESPACE) ∧
    (p.current < p.token_count →
      (parser_advance p).1 = p.tokens.getD p.current zeroToken) := by
  constructor
  · have h := parser_skip_ws_go_spec (p.token_count + 1) p (by omega)
    simp only [parser_peek, parser_skip_whitespace]
    by_cases hq : (parser_skip_ws_go (p.token_count + 1) p).current <
        (parser_skip_ws_go (p.token_count + 1) p).token_count
    · rw [if_pos hq]
      exact h.2.2 hq
    · rw [if_neg hq]
      exact ⟨(by decide : eofToken.type ≠ .TOKEN_NEWLINE),
             (by decide : eofToken.type ≠ .TOKEN_WHITESPACE)⟩
  · intro hlt
    simp only [parser_advance]
    rw [if_pos hlt]

/-- C5 witness: the theorem applied at a one-token array holding a
Newline token. -/
theorem C5_peek_skips_advance_does_not_witness :
    ((parser_peek (parser_create [nlToken] 1)).1.type ≠ .TOKEN_NEWLINE ∧
     (parser_peek (parser_create [nlToken] 1)).1.type ≠ .TOKEN_WHITESPACE) ∧
    (parser_advance (parser_create [nlToken] 1)).1 =
      (parser_create [nlToken] 1).tokens.getD (parser_create [nlToken] 1).current
        zeroToken :=
  ⟨(C5_peek_skips_advance_does_not (parser_create [nlToken] 1)).1,
   (C5_peek_skips_advance_does_not (parser_create [nlToken] 1)).2 (by decide)⟩

/-- C4: lexing `"val=${1+2}"` yields only `String("val=")` followed by
an Error token — the interpolation machinery is unreachable after a
non-empty literal prefix, and the lexer records an InvalidChar error at
the dollar sign; no InterpolationStart token is ever produced.
Compiling an interpolation node emits a plain `OP_CALL` with target
`-1` (the result of looking up the unregistered function name `"str"`
in the *function table*), not a `CALL_NATIVE` of a registered
string-conversion native. -/
theorem C4_interpolation_unreachable_and_miscompiled :
    c4_tokens.map (fun t => (t.type, t.value)) =
      [(.TOKEN_STRING, .stringVal "val=" 4), (.TOKEN_ERROR, .zero)] ∧
    (collect_tokens (lexer_create srcC4 lexer_default_config)).2.error.type =
      .LEXER_ERROR_INVALID_CHAR ∧
    (∀ t ∈ c4_tokens, t.type ≠ .TOKEN_INTERPOLATION_START) ∧
    (compiler_compile_ast (some c4_interp_ast)).bc.instructions =
      [{ opcode := .OP_LOAD_CONST, operand1 := 0, operand2 := 1, operand3 := 0,
         operand4 := 0 },
       { opcode := .OP_CALL, operand1 := -1, operand2 := 0, operand3 := 0,
         operand4 := 0 },
       { opcode := .OP_HALT, operand1 := 0, operand2 := 0, operand3 := 0,
         operand4 := 0 }] ∧
    (∀ i ∈ (compiler_compile_ast (some c4_interp_ast)).bc.instructions,
      i.opcode ≠ .OP_CALL_NATIVE) := by
  decide

/-- `emit` appends exactly one instruction. -/
theorem emit_len (st : CState) (op : VMOpcode) (o1 o2 o3 : Int) :
    (emit st op o1 o2 o3).bc.instructions.length = st.bc.instructions.length + 1 := by
  simp [emit, bytecode_add_instruction]

/-- `emit_ex` appends exactly one instruction. -/
theorem emit_ex_len (st : CState) (op : VMOpcode) (o1 o2 o3 o4 : Int) :
    (emit_ex st op o1 o2 o3 o4).bc.instructions.length = st.bc.instructions.length + 1 := by
  simp [emit_ex, bytecode_add_instruction_ex]

/-- Back-patching preserves the instruction count. -/
theorem patch_len (st : CState) (idx : Nat) :
    (patch_jump_target st idx).bc.instructions.length = st.bc.instructions.length := by
  simp [patch_jump_target]

/-- `emit` does not shrink the instruction list. -/
theorem le_emit (st : CState) (op : VMOpcode) (o1 o2 o3 : Int) :
    st.bc.instructions.length ≤ (emit st op o1 o2 o3).bc.instructions.length := by
  rw [emit_len]
  omega

/-- `emit_ex` does not shrink the instruction list. -/
theorem le_emit_ex (st : CState) (op : VMOpcode) (o1 o2 o3 o4 : Int) :
    st.bc.instructions.length ≤ (emit_ex st op o1 o2 o3 o4).bc.instructions.length := by
  rw [emit_ex_len]
  omega

/-- Back-patching does not shrink the instruction list. -/
theorem le_patch (st : CState) (idx : Nat) :
    st.bc.instructions.length ≤ (patch_jump_target st idx).bc.instructions.length :=
  Nat.le_of_eq (patch_len st idx).symm

/-- Registering a function name never touches the bytecode. -/
theorem add_function_entry_bc (st : CState) (name : String) (addr : Int) :
    (add_function_entry st name addr).bc = st.bc := by
  unfold add_function_entry
  split <;> rfl

/-- A fold whose step never shrinks the instruction list never shrinks
it either. -/
theorem foldl_len_mono (α : Type) (f : CState → α → CState)
    (hf : ∀ (s : CState) (a : α),
      s.bc.instructions.length ≤ (f s a).bc.instructions.length) :
    ∀ (l : List α) (s : CState),
      s.bc.instructions.length ≤ (l.foldl f s).bc.instructions.length
  | [], _ => Nat.le_refl _
  | a :: rest, s => Nat.le_trans (hf s a) (foldl_len_mono α f hf rest (f s a))

/-- The MOVE-emission loop never shrinks the instruction list. -/
theorem emit_arg_moves_len (st : CState) (regs : List Int) :
    st.bc.instructions.length ≤ (emit_arg_moves st regs).bc.instructions.length := by
  show st.bc.instructions.length ≤
    ((regs.enum).foldl (fun s p => emit s .OP_MOVE (p.1 : Int) p.2 0)
      st).bc.instructions.length
  exact foldl_len_mono (Nat × Int) (fun s p => emit s .OP_MOVE (p.1 : Int) p.2 0)
    (fun s p => le_emit s .OP_MOVE (p.1 : Int) p.2 0) regs.enum st

mutual
/-- `compile_node` never shrinks the emitted instruction list. -/
theorem compile_node_len : ∀ (o : Option AstNode) (st : CState),
    st.bc.instructions.length ≤ (compile_node o st).bc.instructions.length
  | none, _ => Nat.le_refl _
  | some n, st => compile_node_one_len n st

/-- One `compile_node` step never shrinks the emitted instruction
list. -/
theorem compile_node_one_len : ∀ (n : AstNode) (st : CState),
    st.bc.instructions.length ≤ (compile_node_one n st).bc.instructions.length
  | .mk (.frameDecl name body) _ next, st => by
    have IH1 := compile_node_list_len body st
    simp only [compile_node_one]
    refine Nat.le_trans ?_ (compile_node_len next _)
    split
    · split
      · rw [emit_len, emit_len]
        omega
      · exact IH1
    · exact IH1
  | .mk (.block stmts) _ next, st => by
    simp only [compile_node_one]
    exact Nat.le_trans (compile_node_list_len stmts st) (compile_node_len next _)
  | .mk (.varDecl name c init) _ next, st => by
    have IH1 : ∀ s : CState,
        s.bc.instructions.length ≤ (compile_expression init s).2.bc.instructions.length :=
      fun s => compile_expression_len init s
    simp only [compile_node_one]
    refine Nat.le_trans ?_ (compile_node_len next _)
    cases init with
    | none => exact Nat.le_refl _
    | some i => exact IH1 st
  | .mk (.exprStmt e) _ next, st => by
    simp only [compile_node_one]
    exact Nat.le_trans (compile_expression_len e st) (compile_node_len next _)
  | .mk (.ifNode cond thenB elseB) _ next, st => by
    have IHc := compile_expression_len cond st
    have IHt : ∀ s : CState,
        s.bc.instructions.length ≤ (compile_node thenB s).bc.instructions.length :=
      fun s => compile_node_len thenB s
    have IHe : ∀ s : CState,
        s.bc.instructions.length ≤ (compile_node elseB s).bc.instructions.length :=
      fun s => compile_node_len elseB s
    simp only [compile_node_one]
    refine Nat.le_trans ?_ (compile_node_len next _)
    cases elseB with
    | none =>
      exact Nat.le_trans IHc (Nat.le_trans
        (le_emit _ .OP_JUMP_IF_ZERO 0 (compile_expression cond st).1 0)
        (Nat.le_trans (IHt _) (le_patch _ _)))
    | some eb =>
      exact Nat.le_trans IHc (Nat.le_trans
        (le_emit _ .OP_JUMP_IF_ZERO 0 (compile_expression cond st).1 0)
        (Nat.le_trans (IHt _) (Nat.le_trans (le_emit _ .OP_JUMP 0 0 0)
          (Nat.le_trans (le_patch _ _) (Nat.le_trans (IHe _) (le_patch _ _))))))
  | .mk (.whileStmt cond body) _ next, st => by
    have IHc := compile_expression_len cond st
    have IHb : ∀ s : CState,
        s.bc.instructions.length ≤ (compile_node body s).bc.instructions.length :=
      fun s => compile_node_len body s
    simp only [compile_node_one]
    refine Nat.le_trans ?_ (compile_node_len next _)
    exact Nat.le_trans IHc (Nat.le_trans
      (le_emit _ .OP_JUMP_IF_ZERO 0 (compile_expression cond st).1 0)
      (Nat.le_trans (IHb _)
        (Nat.le_trans (le_emit _ .OP_JUMP (st.bc.instructions.length : Int) 0 0)
          (le_patch _ _))))
  | .mk (.forStmt init cond incr body) _ next, st => by
    have IHi : ∀ s : CState,
        s.bc.instructions.length ≤ (compile_node init s).bc.instructions.length :=
      fun s => compile_node_len init s
    have IHc : ∀ s : CState,
        s.bc.instructions.length ≤ (compile_expression cond s).2.bc.instructions.length :=
      fun s => compile_expression_len cond s
    have IHb : ∀ s : CState,
        s.bc.instructions.length ≤ (compile_node body s).bc.instructions.length :=
      fun s => compile_node_len body s
    have IHn : ∀ s : CState,
        s.bc.instructions.length ≤ (compile_node incr s).bc.instructions.length :=
      fun s => compile_node_len incr s
    simp only [compile_node_one]
    refine Nat.le_trans ?_ (compile_node_len next _)
    exact Nat.le_trans (IHi st) (Nat.le_trans (IHc _) (Nat.le_trans
      (le_emit _ .OP_JUMP_IF_ZERO 0 (compile_expression cond (compile_node init st)).1 0)
      (Nat.le_trans (IHb _) (Nat.le_trans (IHn _) (Nat.le_trans
        (le_emit _ .OP_JUMP ((compile_node init st).bc.instructions.length : Int) 0 0)
        (le_patch _ _))))))
  | .mk (.returnStmt e) _ next, st => by
    simp only [compile_node_one]
    refine Nat.le_trans ?_ (compile_node_len next _)
    exact Nat.le_trans (compile_expression_len e st) (le_emit _ _ _ _ _)
  | .mk (.funcDecl name params body) _ next, st => by
    have IHb : ∀ s : CState,
        s.bc.instructions.length ≤ (compile_node body s).bc.instructions.length :=
      fun s => compile_node_len body s
    simp only [compile_node_one]
    refine Nat.le_trans ?_ (compile_node_len next _)
    refine Nat.le_trans ?_ (le_emit _ _ _ _ _)
    refine Nat.le_trans ?_ (IHb _)
    exact Nat.le_of_eq (by rw [add_function_entry_bc])
  | .mk (.classDecl cn members) _ next, st => by
    simp only [compile_node_one]
    exact Nat.le_trans (compile_node_list_len members st) (compile_node_len next _)
  | .mk (.constDecl a b i) _ next, st => by
    simp only [compile_node_one]
    exact compile_node_len next st
  | .mk .elseNode _ next, st => by
    simp only [compile_node_one]
    exact compile_node_len next st
  | .mk (.loopNode b) _ next, st => by
    simp only [compile_node_one]
    exact compile_node_len next st
  | .mk (.errorHandler b) _ next, st => by
    simp only [compile_node_one]
    exact compile_node_len next st
  | .mk .functionNode _ next, st => by
    simp only [compile_node_one]
    exact compile_node_len next st
  | .mk (.tryCatch b) _ next, st => by
    simp only [compile_node_one]
    exact compile_node_len next st
  | .mk (.ifStmt a b c) _ next, st => by
    simp only [compile_node_one]
    exact compile_node_len next st
  | .mk .exprGeneric _ next, st => by
    simp only [compile_node_one]
    exact compile_node_len next st
  | .mk (.exprBinary a b c) _ next, st => by
    simp only [compile_node_one]
    exact compile_node_len next st
  | .mk (.exprUnary a b) _ next, st => by
    simp only [compile_node_one]
    exact compile_node_len next st
  | .mk (.exprLiteral a b) _ next, st => by
    simp only [compile_node_one]
    exact compile_node_len next st
  | .mk (.exprIdentifier a) _ next, st => by
    simp only [compile_node_one]
    exact compile_node_len next st
  | .mk (.exprCall a b) _ next, st => by
    simp only [compile_node_one]
    exact compile_node_len next st
  | .mk (.exprIndex a b) _ next, st => by
    simp only [compile_node_one]
    exact compile_node_len next st
  | .mk (.exprMember a b) _ next, st => by
    simp only [compile_node_one]
    exact compile_node_len next st
  | .mk (.exprInterpolation a) _ next, st => by
    simp only [compile_node_one]
    exact compile_node_len next st
  | .mk (.docstringNode a) _ next, st => by
    simp only [compile_node_one]
    exact compile_node_len next st
  | .mk (.regexNode a) _ next, st => by
    simp only [compile_node_one]
    exact compile_node_len next st

/-- The statement-list loop never shrinks the emitted instruction
list. -/
theorem compile_node_list_len : ∀ (l : List AstNode) (st : CState),
    st.bc.instructions.length ≤ (compile_node_list l st).bc.instructions.length
  | [], _ => Nat.le_refl _
  | n :: rest, st =>
    Nat.le_trans (compile_node_one_len n st) (compile_node_list_len rest _)

/-- `compile_expression` never shrinks the emitted instruction list. -/
theorem compile_expression_len : ∀ (o : Option AstNode) (st : CState),
    st.bc.instructions.length ≤ (compile_expression o st).2.bc.instructions.length
  | none, _ => Nat.le_refl _
  | some n, st => compile_expression_one_len n st

/-- One `compile_expression` step never shrinks the emitted instruction
list. -/
theorem compile_expression_one_len : ∀ (n : AstNode) (st : CState),
    st.bc.instructions.length ≤ (compile_expression_one n st).2.bc.instructions.length
  | .mk (.exprLiteral lt payload) _ _, st => by
    simp only [compile_expression_one]
    split <;> first
      | exact le_emit { st with next_register := st.next_register + 1 } _ _ _ _
      | exact Nat.le_refl _
  | .mk (.exprBinary op l r) _ _, st => by
    have h1 := compile_expression_len l st
    have h2 := compile_expression_len r (compile_expression l st).2
    simp only [compile_expression_one]
    split <;> first
      | exact Nat.le_trans h1 (Nat.le_trans h2
          (le_emit { (compile_expression r (compile_expression l st).2).2 with
              next_register :=
                (compile_expression r (compile_expression l st).2).2.next_register + 1 }
            _ _ _ _))
      | exact Nat.le_trans h1 h2
  | .mk (.exprUnary op e) _ _, st => by
    have h1 := compile_expression_len e st
    simp only [compile_expression_one]
    split <;> first
      | exact Nat.le_trans h1 (Nat.le_trans
          (le_emit { (compile_expression e st).2 with
              next_register := (compile_expression e st).2.next_register + 1 }
            _ _ _ _)
          (le_emit _ _ _ _ _))
      | exact h1
  | .mk (.exprIdentifier id) _ _, st => by
    simp only [compile_expression_one]
    split <;> (try split) <;> exact Nat.le_refl _
  | .mk (.exprCall callee args) _ _, st => by
    have IHd : ∀ s : CState,
        s.bc.instructions.length ≤ (compile_args_discard args s).bc.instructions.length :=
      fun s => compile_args_discard_len args s
    have IHc : ∀ s : CState,
        s.bc.instructions.length ≤ (compile_args_collect args s).2.bc.instructions.length :=
      fun s => compile_args_collect_len args s
    simp only [compile_expression_one]
    split
    · split
      · refine Nat.le_trans ?_ (le_emit_ex _ _ _ _ _ _)
        exact IHd st
      · refine Nat.le_trans ?_ (le_emit _ _ _ _ _)
        refine Nat.le_trans ?_ (emit_arg_moves_len _ _)
        exact IHc st
    · exact Nat.le_refl _
  | .mk (.exprInterpolation e) _ _, st => by
    simp only [compile_expression_one]
    exact Nat.le_trans (compile_expression_len e st) (le_emit _ _ _ _ _)
  | .mk (.frameDecl a b) _ _, st => by
    simp only [compile_expression_one]
    exact Nat.le_refl _
  | .mk (.varDecl a b c) _ _, st => by
    simp only [compile_expression_one]
    exact Nat.le_refl _
  | .mk (.constDecl a b c) _ _, st => by
    simp only [compile_expression_one]
    exact Nat.le_refl _
  | .mk (.funcDecl a b c) _ _, st => by
    simp only [compile_expression_one]
    exact Nat.le_refl _
  | .mk (.ifNode a b c) _ _, st => by
    simp only [compile_expression_one]
    exact Nat.le_refl _
  | .mk .elseNode _ _, st => by
    simp only [compile_expression_one]
    exact Nat.le_refl _
  | .mk (.loopNode a) _ _, st => by
    simp only [compile_expression_one]
    exact Nat.le_refl _
  | .mk (.errorHandler a) _ _, st => by
    simp only [compile_expression_one]
    exact Nat.le_refl _
  | .mk .functionNode _ _, st => by
    simp only [compile_expression_one]
    exact Nat.le_refl _
  | .mk (.tryCatch a) _ _, st => by
    simp only [compile_expression_one]
    exact Nat.le_refl _
  | .mk (.classDecl a b) _ _, st => by
    simp only [compile_expression_one]
    exact Nat.le_refl _
  | .mk (.block a) _ _, st => by
    simp only [compile_expression_one]
    exact Nat.le_refl _
  | .mk (.returnStmt a) _ _, st => by
    simp only [compile_expression_one]
    exact Nat.le_refl _
  | .mk (.whileStmt a b) _ _, st => by
    simp only [compile_expression_one]
    exact Nat.le_refl _
  | .mk (.forStmt a b c d) _ _, st => by
    simp only [compile_expression_one]
    exact Nat.le_refl _
  | .mk (.ifStmt a b c) _ _, st => by
    simp only [compile_expression_one]
    exact Nat.le_refl _
  | .mk (.exprStmt a) _ _, st => by
    simp only [compile_expression_one]
    exact Nat.le_refl _
  | .mk .exprGeneric _ _, st => by
    simp only [compile_expression_one]
    exact Nat.le_refl _
  | .mk (.exprIndex a b) _ _, st => by
    simp only [compile_expression_one]
    exact Nat.le_refl _
  | .mk (.exprMember a b) _ _, st => by
    simp only [compile_expression_one]
    exact Nat.le_refl _
  | .mk (.docstringNode a) _ _, st => by
    simp only [compile_expression_one]
    exact Nat.le_refl _
  | .mk (.regexNode a) _ _, st => by
    simp only [compile_expression_one]
    exact Nat.le_refl _

/-- The native-call argument loop never shrinks the emitted instruction
list. -/
theorem compile_args_discard_len : ∀ (l : List AstNode) (st : CState),
    st.bc.instructions.length ≤ (compile_args_discard l st).bc.instructions.length
  | [], _ => Nat.le_refl _
  | a :: rest, st =>
    Nat.le_trans (compile_expression_one_len a st) (compile_args_discard_len rest _)

/-- The bytecode-call argument loop never shrinks the emitted
instruction list. -/
theorem compile_args_collect_len : ∀ (l : List AstNode) (st : CState),
    st.bc.instructions.length ≤ (compile_args_collect l st).2.bc.instructions.length
  | [], _ => Nat.le_refl _
  | a :: rest, st =>
    Nat.le_trans (compile_expression_one_len a st) (compile_args_collect_len rest _)
end

/-- Emitting an instruction preserves the jump-target invariant,
provided the new instruction (when it is a jump) targets within the
current count. -/
theorem jt_bounded_emit (st : CState) (op : VMOpcode) (o1 o2 o3 : Int)
    (h : jt_bounded st.bc)
    (hop : (op = VMOpcode.OP_JUMP ∨ op = VMOpcode.OP_JUMP_IF_ZERO) →
      0 ≤ o1 ∧ o1 ≤ (st.bc.instructions.length : Int)) :
    jt_bounded (emit st op o1 o2 o3).bc := by
  have hlen : (emit st op o1 o2 o3).bc.instructions.length =
      st.bc.instructions.length + 1 := emit_len st op o1 o2 o3
  intro i hi hj
  rw [hlen]
  have hi2 : i ∈ st.bc.instructions ∨
      i = { opcode := op, operand1 := o1, operand2 := o2, operand3 := o3,
            operand4 := 0 } := by
    simpa [emit, bytecode_add_instruction, List.mem_append] using hi
  rcases hi2 with hi2 | rfl
  · have hb := h i hi2 hj
    push_cast
    omega
  · have hb := hop hj
    push_cast
    omega

/-- `emit_ex` version of `jt_bounded_emit`. -/
theorem jt_bounded_emit_ex (st : CState) (op : VMOpcode) (o1 o2 o3 o4 : Int)
    (h : jt_bounded st.bc)
    (hop : (op = VMOpcode.OP_JUMP ∨ op = VMOpcode.OP_JUMP_IF_ZERO) →
      0 ≤ o1 ∧ o1 ≤ (st.bc.instructions.length : Int)) :
    jt_bounded (emit_ex st op o1 o2 o3 o4).bc := by
  have hlen : (emit_ex st op o1 o2 o3 o4).bc.instructions.length =
      st.bc.instructions.length + 1 := emit_ex_len st op o1 o2 o3 o4
  intro i hi hj
  rw [hlen]
  have hi2 : i ∈ st.bc.instructions ∨
      i = { opcode := op, operand1 := o1, operand2 := o2, operand3 := o3,
            operand4 := o4 } := by
    simpa [emit_ex, bytecode_add_instruction_ex, List.mem_append] using hi
  rcases hi2 with hi2 | rfl
  · have hb := h i hi2 hj
    push_cast
    omega
  · have hb := hop hj
    push_cast
    omega

/-- Back-patching a jump to the current instruction count preserves the
jump-target invariant. -/
theorem jt_bounded_patch (st : CState) (idx : Nat) (h : jt_bounded st.bc) :
    jt_bounded (patch_jump_target st idx).bc := by
  have hlen : (patch_jump_target st idx).bc.instructions.length =
      st.bc.instructions.length := patch_len st idx
  intro i hi hj
  rw [hlen]
  have hi2 : i ∈ st.bc.instructions ∨
      i = { st.bc.instructions.getD idx default with
            operand1 := (st.bc.instructions.length : Int) } := by
    have hi3 : i ∈ st.bc.instructions.set idx
        { st.bc.instructions.getD idx default with
          operand1 := (st.bc.instructions.length : Int) } := by
      simpa [patch_jump_target] using hi
    exact List.mem_or_eq_of_mem_set hi3
  rcases hi2 with hi2 | rfl
  · exact h i hi2 hj
  · exact ⟨Int.natCast_nonneg _, Int.le_refl _⟩

/-- A fold whose step preserves the jump-target invariant preserves it
as well. -/
theorem foldl_jt (α : Type) (f : CState → α → CState)
    (hf : ∀ (s : CState) (a : α), jt_bounded s.bc → jt_bounded (f s a).bc) :
    ∀ (l : List α) (s : CState), jt_bounded s.bc → jt_bounded (l.foldl f s).bc
  | [], _, h => h
  | a :: rest, s, h => foldl_jt α f hf rest (f s a) (hf s a h)

/-- The MOVE-emission loop emits no jumps, so it preserves the
jump-target invariant. -/
theorem emit_arg_moves_jt (st : CState) (regs : List Int) (h : jt_bounded st.bc) :
    jt_bounded (emit_arg_moves st regs).bc := by
  show jt_bounded
    (((regs.enum).foldl (fun s p => emit s .OP_MOVE (p.1 : Int) p.2 0) st)).bc
  exact foldl_jt (Nat × Int) (fun s p => emit s .OP_MOVE (p.1 : Int) p.2 0)
    (fun s p hh => jt_bounded_emit s .OP_MOVE (p.1 : Int) p.2 0 hh
      (fun hj => absurd hj (by decide)))
    regs.enum st h

mutual
/-- `compile_node` preserves the jump-target invariant. -/
theorem compile_node_jt : ∀ (o : Option AstNode) (st : CState),
    jt_bounded st.bc → jt_bounded (compile_node o st).bc
  | none, _, h => h
  | some n, st, h => compile_node_one_jt n st h

/-- One `compile_node` step preserves the jump-target invariant. -/
theorem compile_node_one_jt : ∀ (n : AstNode) (st : CState),
    jt_bounded st.bc → jt_bounded (compile_node_one n st).bc
  | .mk (.frameDecl name body) _ next, st, h => by
    have h1 := compile_node_list_jt body st h
    simp only [compile_node_one]
    refine compile_node_jt next _ ?_
    split
    · split
      · exact jt_bounded_emit _ _ _ _ _ (jt_bounded_emit _ _ _ _ _ h1
          (fun hj => absurd hj (by decide))) (fun hj => absurd hj (by decide))
      · exact h1
    · exact h1
  | .mk (.block stmts) _ next, st, h => by
    simp only [compile_node_one]
    exact compile_node_jt next _ (compile_node_list_jt stmts st h)
  | .mk (.varDecl name c init) _ next, st, h => by
    have IH1 : ∀ s : CState, jt_bounded s.bc →
        jt_bounded (compile_expression init s).2.bc :=
      fun s hh => compile_expression_jt init s hh
    simp only [compile_node_one]
    refine compile_node_jt next _ ?_
    cases init with
    | none => exact h
    | some i => exact IH1 st h
  | .mk (.exprStmt e) _ next, st, h => by
    simp only [compile_node_one]
    exact compile_node_jt next _ (compile_expression_jt e st h)
  | .mk (.ifNode cond thenB elseB) _ next, st, h => by
    have IHt : ∀ s : CState, jt_bounded s.bc → jt_bounded (compile_node thenB s).bc :=
      fun s hh => compile_node_jt thenB s hh
    have IHe : ∀ s : CState, jt_bounded s.bc → jt_bounded (compile_node elseB s).bc :=
      fun s hh => compile_node_jt elseB s hh
    have hbase : jt_bounded (compile_node thenB (emit (compile_expression cond st).2
        .OP_JUMP_IF_ZERO 0 (compile_expression cond st).1 0)).bc :=
      IHt _ (jt_bounded_emit _ _ _ _ _ (compile_expression_jt cond st h)
        (fun _ => ⟨Int.le_refl 0, Int.natCast_nonneg _⟩))
    simp only [compile_node_one]
    refine compile_node_jt next _ ?_
    cases elseB with
    | none => exact jt_bounded_patch _ _ hbase
    | some eb =>
      refine jt_bounded_patch _ _ ?_
      refine IHe _ ?_
      refine jt_bounded_patch _ _ ?_
      exact jt_bounded_emit _ _ _ _ _ hbase
        (fun _ => ⟨Int.le_refl 0, Int.natCast_nonneg _⟩)
  | .mk (.whileStmt cond body) _ next, st, h => by
    have IHb : ∀ s : CState, jt_bounded s.bc → jt_bounded (compile_node body s).bc :=
      fun s hh => compile_node_jt body s hh
    have IHbl : ∀ s : CState,
        s.bc.instructions.length ≤ (compile_node body s).bc.instructions.length :=
      fun s => compile_node_len body s
    simp only [compile_node_one]
    refine compile_node_jt next _ ?_
    refine jt_bounded_patch _ _ ?_
    refine jt_bounded_emit _ _ _ _ _ ?_ ?_
    · exact IHb _ (jt_bounded_emit _ _ _ _ _ (compile_expression_jt cond st h)
        (fun _ => ⟨Int.le_refl 0, Int.natCast_nonneg _⟩))
    · intro _
      refine ⟨Int.natCast_nonneg _, ?_⟩
      have h1 := compile_expression_len cond st
      have h2 := IHbl (emit (compile_expression cond st).2 .OP_JUMP_IF_ZERO 0
        (compile_expression cond st).1 0)
      rw [emit_len] at h2
      exact_mod_cast Nat.le_trans h1 (Nat.le_trans (Nat.le_succ _) h2)
  | .mk (.forStmt init cond incr body) _ next, st, h => by
    have IHij : ∀ s : CState, jt_bounded s.bc → jt_bounded (compile_node init s).bc :=
      fun s hh => compile_node_jt init s hh
    have IHcj : ∀ s : CState, jt_bounded s.bc →
        jt_bounded (compile_expression cond s).2.bc :=
      fun s hh => compile_expression_jt cond s hh
    have IHbj : ∀ s : CState, jt_bounded s.bc → jt_bounded (compile_node body s).bc :=
      fun s hh => compile_node_jt body s hh
    have IHnj : ∀ s : CState, jt_bounded s.bc → jt_bounded (compile_node incr s).bc :=
      fun s hh => compile_node_jt incr s hh
    have IHcl : ∀ s : CState,
        s.bc.instructions.length ≤ (compile_expression cond s).2.bc.instructions.length :=
      fun s => compile_expression_len cond s
    have IHbl : ∀ s : CState,
        s.bc.instructions.length ≤ (compile_node body s).bc.instructions.length :=
      fun s => compile_node_len body s
    have IHnl : ∀ s : CState,
        s.bc.instructions.length ≤ (compile_node incr s).bc.instructions.length :=
      fun s => compile_node_len incr s
    simp only [compile_node_one]
    refine compile_node_jt next _ ?_
    refine jt_bounded_patch _ _ ?_
    refine jt_bounded_emit _ _ _ _ _ ?_ ?_
    · exact IHnj _ (IHbj _ (jt_bounded_emit _ _ _ _ _ (IHcj _ (IHij st h))
        (fun _ => ⟨Int.le_refl 0, Int.natCast_nonneg _⟩)))
    · intro _
      refine ⟨Int.natCast_nonneg _, ?_⟩
      have h1 := IHcl (compile_node init st)
      have h2 := IHbl (emit (compile_expression cond (compile_node init st)).2
        .OP_JUMP_IF_ZERO 0 (compile_expression cond (compile_node init st)).1 0)
      have h3 := IHnl (compile_node body (emit
        (compile_expression cond (compile_node init st)).2
        .OP_JUMP_IF_ZERO 0 (compile_expression cond (compile_node init st)).1 0))
      rw [emit_len] at h2
      exact_mod_cast Nat.le_trans h1 (Nat.le_trans (Nat.le_succ _)
        (Nat.le_trans h2 h3))
  | .mk (.returnStmt e) _ next, st, h => by
    simp only [compile_node_one]
    refine compile_node_jt next _ ?_
    exact jt_bounded_emit _ _ _ _ _ (compile_expression_jt e st h)
      (fun hj => absurd hj (by decide))
  | .mk (.funcDecl name params body) _ next, st, h => by
    have IHb : ∀ s : CState, jt_bounded s.bc → jt_bounded (compile_node body s).bc :=
      fun s hh => compile_node_jt body s hh
    have h1 : jt_bounded (add_function_entry st name
        (st.bc.instructions.length : Int)).bc := by
      rw [add_function_entry_bc]
      exact h
    simp only [compile_node_one]
    refine compile_node_jt next _ ?_
    exact jt_bounded_emit _ _ _ _ _ (IHb _ h1) (fun hj => absurd hj (by decide))
  | .mk (.classDecl cn members) _ next, st, h => by
    simp only [compile_node_one]
    exact compile_node_jt next _ (compile_node_list_jt members st h)
  | .mk (.constDecl a b i) _ next, st, h => by
    simp only [compile_node_one]
    exact compile_node_jt next st h
  | .mk .elseNode _ next, st, h => by
    simp only [compile_node_one]
    exact compile_node_jt next st h
  | .mk (.loopNode b) _ next, st, h => by
    simp only [compile_node_one]
    exact compile_node_jt next st h
  | .mk (.errorHandler b) _ next, st, h => by
    simp only [compile_node_one]
    exact compile_node_jt next st h
  | .mk .functionNode _ next, st, h => by
    simp only [compile_node_one]
    exact compile_node_jt next st h
  | .mk (.tryCatch b) _ next, st, h => by
    simp only [compile_node_one]
    exact compile_node_jt next st h
  | .mk (.ifStmt a b c) _ next, st, h => by
    simp only [compile_node_one]
    exact compile_node_jt next st h
  | .mk .exprGeneric _ next, st, h => by
    simp only [compile_node_one]
    exact compile_node_jt next st h
  | .mk (.exprBinary a b c) _ next, st, h => by
    simp only [compile_node_one]
    exact compile_node_jt next st h
  | .mk (.exprUnary a b) _ next, st, h => by
    simp only [compile_node_one]
    exact compile_node_jt next st h
  | .mk (.exprLiteral a b) _ next, st, h => by
    simp only [compile_node_one]
    exact compile_node_jt next st h
  | .mk (.exprIdentifier a) _ next, st, h => by
    simp only [compile_node_one]
    exact compile_node_jt next st h
  | .mk (.exprCall a b) _ next, st, h => by
    simp only [compile_node_one]
    exact compile_node_jt next st h
  | .mk (.exprIndex a b) _ next, st, h => by
    simp only [compile_node_one]
    exact compile_node_jt next st h
  | .mk (.exprMember a b) _ next, st, h => by
    simp only [compile_node_one]
    exact compile_node_jt next st h
  | .mk (.exprInterpolation a) _ next, st, h => by
    simp only [compile_node_one]
    exact compile_node_jt next st h
  | .mk (.docstringNode a) _ next, st, h => by
    simp only [compile_node_one]
    exact compile_node_jt next st h
  | .mk (.regexNode a) _ next, st, h => by
    simp only [compile_node_one]
    exact compile_node_jt next st h

/-- Statement lists preserve the jump-target invariant. -/
theorem compile_node_list_jt : ∀ (l : List AstNode) (st : CState),
    jt_bounded st.bc → jt_bounded (compile_node_list l st).bc
  | [], _, h => h
  | n :: rest, st, h => compile_node_list_jt rest _ (compile_node_one_jt n st h)

/-- `compile_expression` preserves the jump-target invariant. -/
theorem compile_expression_jt : ∀ (o : Option AstNode) (st : CState),
    jt_bounded st.bc → jt_bounded (compile_expression o st).2.bc
  | none, _, h => h
  | some n, st, h => compile_expression_one_jt n st h

/-- One `compile_expression` step preserves the jump-target
invariant (no expression form emits a jump). -/
theorem compile_expression_one_jt : ∀ (n : AstNode) (st : CState),
    jt_bounded st.bc → jt_bounded (compile_expression_one n st).2.bc
  | .mk (.exprLiteral lt payload) _ _, st, h => by
    simp only [compile_expression_one]
    split <;> first
      | exact jt_bounded_emit _ _ _ _ _ h (fun hj => absurd hj (by decide))
      | exact h
  | .mk (.exprBinary op l r) _ _, st, h => by
    have h1 := compile_expression_jt l st h
    have h2 := compile_expression_jt r (compile_expression l st).2 h1
    simp only [compile_expression_one]
    split <;> first
      | exact jt_bounded_emit _ _ _ _ _ h2 (fun hj => absurd hj (by decide))
      | exact h2
  | .mk (.exprUnary op e) _ _, st, h => by
    have h1 := compile_expression_jt e st h
    simp only [compile_expression_one]
    split <;> first
      | exact jt_bounded_emit _ _ _ _ _ (jt_bounded_emit _ _ _ _ _ h1
          (fun hj => absurd hj (by decide))) (fun hj => absurd hj (by decide))
      | exact h1
  | .mk (.exprIdentifier id) _ _, st, h => by
    simp only [compile_expression_one]
    split <;> (try split) <;> exact h
  | .mk (.exprCall callee args) _ _, st, h => by
    have IHd : ∀ s : CState, jt_bounded s.bc →
        jt_bounded (compile_args_discard args s).bc :=
      fun s hh => compile_args_discard_jt args s hh
    have IHcj : ∀ s : CState, jt_bounded s.bc →
        jt_bounded (compile_args_collect args s).2.bc :=
      fun s hh => compile_args_collect_jt args s hh
    simp only [compile_expression_one]
    split
    · split
      · exact jt_bounded_emit_ex _ _ _ _ _ _ (IHd st h)
          (fun hj => absurd hj (by decide))
      · exact jt_bounded_emit _ _ _ _ _ (emit_arg_moves_jt _ _ (IHcj st h))
          (fun hj => absurd hj (by decide))
    · exact h
  | .mk (.exprInterpolation e) _ _, st, h => by
    simp only [compile_expression_one]
    exact jt_bounded_emit _ _ _ _ _ (compile_expression_jt e st h)
      (fun hj => absurd hj (by decide))
  | .mk (.frameDecl a b) _ _, st, h => h
  | .mk (.varDecl a b c) _ _, st, h => h
  | .mk (.constDecl a b c) _ _, st, h => h
  | .mk (.funcDecl a b c) _ _, st, h => h
  | .mk (.ifNode a b c) _ _, st, h => h
  | .mk .elseNode _ _, st, h => h
  | .mk (.loopNode a) _ _, st, h => h
  | .mk (.errorHandler a) _ _, st, h => h
  | .mk .functionNode _ _, st, h => h
  | .mk (.tryCatch a) _ _, st, h => h
  | .mk (.classDecl a b) _ _, st, h => h
  | .mk (.block a) _ _, st, h => h
  | .mk (.returnStmt a) _ _, st, h => h
  | .mk (.whileStmt a b) _ _, st, h => h
  | .mk (.forStmt a b c d) _ _, st, h => h
  | .mk (.ifStmt a b c) _ _, st, h => h
  | .mk (.exprStmt a) _ _, st, h => h
  | .mk .exprGeneric _ _, st, h => h
  | .mk (.exprIndex a b) _ _, st, h => h
  | .mk (.exprMember a b) _ _, st, h => h
  | .mk (.docstringNode a) _ _, st, h => h
  | .mk (.regexNode a) _ _, st, h => h

/-- The native-call argument loop preserves the jump-target
invariant. -/
theorem compile_args_discard_jt : ∀ (l : List AstNode) (st : CState),
    jt_bounded st.bc → jt_bounded (compile_args_discard l st).bc
  | [], _, h => h
  | a :: rest, st, h =>
    compile_args_discard_jt rest _ (compile_expression_one_jt a st h)

/-- The bytecode-call argument loop preserves the jump-target
invariant. -/
theorem compile_args_collect_jt : ∀ (l : List AstNode) (st : CState),
    jt_bounded st.bc → jt_bounded (compile_args_collect l st).2.bc
  | [], _, h => h
  | a :: rest, st, h =>
    compile_args_collect_jt rest _ (compile_expression_one_jt a st h)
end

/-- C8: for every AST, every `JUMP` / `JUMP_IF_ZERO` instruction in the
bytecode returned by a complete compiler run has a target `t` with
`0 ≤ t < instruction_count`, where `instruction_count` is the final
count after the trailing `HALT` is appended. -/
theorem C8_jump_targets_in_range (root : Option AstNode) :
    ∀ i ∈ (compiler_compile_ast root).bc.instructions,
      (i.opcode = .OP_JUMP ∨ i.opcode = .OP_JUMP_IF_ZERO) →
        0 ≤ i.operand1 ∧
        i.operand1 < ((compiler_compile_ast root).bc.instructions.length : Int) := by
  have h0 : jt_bounded (add_function_entry
      { next_register := 0, current_scope := none, function_table := [],
        bc := bytecode_create, aborted := false } "print" (-1)).bc := by
    rw [add_function_entry_bc]
    intro i hi
    exact absurd hi (List.not_mem_nil i)
  have h1 := compile_node_jt root _ h0
  intro i hi hj
  have hrw : compiler_compile_ast root = emit (compile_node root (add_function_entry
      { next_register := 0, current_scope := none, function_table := [],
        bc := bytecode_create, aborted := false } "print" (-1))) .OP_HALT 0 0 0 := rfl
  rw [hrw] at hi ⊢
  rw [emit_len]
  have hi2 : i ∈ (compile_node root (add_function_entry
      { next_register := 0, current_scope := none, function_table := [],
        bc := bytecode_create, aborted := false } "print" (-1))).bc.instructions ∨
      i = { opcode := .OP_HALT, operand1 := 0, operand2 := 0, operand3 := 0,
            operand4 := 0 } := by
    simpa [emit, bytecode_add_instruction, List.mem_append] using hi
  rcases hi2 with hmem | rfl
  · have hb := h1 i hmem hj
    push_cast
    push_cast at hb
    omega
  · rcases hj with hj | hj <;> exact absurd hj (by decide)

/-- C8 witness: the `JUMP_IF_ZERO` emitted for the concrete `if` of
`c8_ast` sits at index 1 with target 3, strictly below the final count
4. -/
theorem C8_jump_targets_in_range_witness :
    0 ≤ ((compiler_compile_ast (some c8_ast)).bc.instructions.getD 1 default).operand1 ∧
    ((compiler_compile_ast (some c8_ast)).bc.instructions.getD 1 default).operand1 <
      ((compiler_compile_ast (some c8_ast)).bc.instructions.length : Int) :=
  C8_jump_targets_in_range (some c8_ast)
    ((compiler_compile_ast (some c8_ast)).bc.instructions.getD 1 default)
    (by decide) (by decide)

/-- `vm_register_native` changes only the native registry. -/
theorem vm_register_native_shape (vm : VM) (name : String) (f : NativeFn) :
    ∃ regs, (vm_register_native vm name f).2 = { vm with native_registry := regs } := by
  unfold vm_register_native
  split
  · exact ⟨vm.native_registry, rfl⟩
  · split
    · exact ⟨replace_native vm.native_registry name f, rfl⟩
    · exact ⟨vm.native_registry ++ [(name, f)], rfl⟩

/-- Folding `vm_register_native` over a name list changes only the
native registry. -/
theorem register_foldl_shape (impls : String → NativeFn) :
    ∀ (names : List String) (vm : VM),
      ∃ regs, names.foldl (fun v n => (vm_register_native v n (impls n)).2) vm =
        { vm with native_registry := regs }
  | [], vm => ⟨vm.native_registry, rfl⟩
  | n :: rest, vm => by
    obtain ⟨r2, h2⟩ :=
      register_foldl_shape impls rest ((vm_register_native vm n (impls n)).2)
    obtain ⟨r1, h1⟩ := vm_register_native_shape vm n (impls n)
    refine ⟨r2, ?_⟩
    simp only [List.foldl_cons]
    rw [h2, h1]

/-- The native-registration block of `osfl_run_file` changes only the
native registry of the freshly created VM. -/
theorem register_osfl_natives_shape (vm : VM) (impls : String → NativeFn) :
    ∃ regs, register_osfl_natives vm impls = { vm with native_registry := regs } :=
  register_foldl_shape impls osfl_native_names vm

/-- A halted VM is a fixed point of the run loop for every fuel. -/
theorem vm_run_go_halted (vm : VM) (h : vm.running = false) :
    ∀ fuel, vm_run_go fuel vm = vm
  | 0 => rfl
  | Nat.succ fuel => by
    simp only [vm_run_go]
    rw [h]
    rfl

/-- No entry of a list all of whose members (and whose default) avoid
the payload Int 30 can produce that payload under `getD`. -/
theorem getD_payload_ne :
    ∀ (l : List VMValue) (d : VMValue),
      (∀ v ∈ l, v.payload ≠ VPayload.vint 30) → d.payload ≠ VPayload.vint 30 →
      ∀ n : Nat, ((l.getD n d).payload ≠ VPayload.vint 30)
  | [], _, _, hd, _ => hd
  | v :: _, _, h, _, 0 => h v (List.mem_cons_self v _)
  | _ :: rest, d, h, hd, Nat.succ n =>
    getD_payload_ne rest d (fun w hw => h w (List.mem_cons_of_mem _ hw)) hd n

/-- C1: running the Scenario-1 source through the full pipeline (with
arbitrary native implementations) reaches a final VM that has *halted
on an `ADD` type mismatch*: registers 0 and 1 hold the two literals,
every other register is Null, and no register — in particular not the
one compiled for `a + b` — ever contains Int 30.  The compiler never
bound `a` and `b` (`var` declarations record no binding), so the `ADD`
reads the dummy registers 2 and 3, which hold Null. -/
theorem C1_arithmetic_scenario_never_int30 (impls : String → NativeFn) :
    ∃ vm, osfl_run_pipeline srcC1.data "input.osfl" impls 16 = .finished vm ∧
      vm.running = false ∧
      vm.registers = c1_expected_registers ∧
      (∀ fuel : Nat, vm_run_go fuel vm = vm) ∧
      (∀ i : Int, (vm_get_register_value (some vm) i).payload ≠ .vint 30) := by
  obtain ⟨regs, hregs⟩ := register_osfl_natives_shape (vm_create c1_bc) impls
  have hlex : ((collect_tokens (lexer_create srcC1.data
      { lexer_default_config with file_name := "input.osfl" })).2.error.type !=
      LexerErrorType.LEXER_ERROR_NONE) = false := by decide
  have hsem : ¬ (0 < (semantic_analyze (parser_parse (parser_create
      (collect_tokens (lexer_create srcC1.data
        { lexer_default_config with file_name := "input.osfl" })).1
      (collect_tokens (lexer_create srcC1.data
        { lexer_default_config with file_name := "input.osfl" })).1.length)).1
      semantic_init).error_count) := by decide
  have hbc : (compiler_compile_ast (parser_parse (parser_create
      (collect_tokens (lexer_create srcC1.data
        { lexer_default_config with file_name := "input.osfl" })).1
      (collect_tokens (lexer_create srcC1.data
        { lexer_default_config with file_name := "input.osfl" })).1.length)).1).bc =
      c1_bc := by decide
  have hrun : vm_run_go 16 { vm_create c1_bc with native_registry := regs } =
      { c1_final with native_registry := regs } := rfl
  refine ⟨{ c1_final with native_registry := regs }, ?_, rfl, rfl, ?_, ?_⟩
  · simp only [osfl_run_pipeline, hlex, Bool.false_eq_true, if_false]
    rw [if_neg hsem, hbc, hregs, hrun]
  · exact fun fuel => vm_run_go_halted _ rfl fuel
  · intro i
    simp only [vm_get_register_value]
    split
    · decide
    · exact getD_payload_ne c1_final.registers nullValue (by decide) (by decide) i.toNat

end Osfl
